import Mathlib

/-!
# Verification of the KDP-Algoritmai VRPPD solver core

A shallow embedding, in Lean 4, of the optimization core of the
KDP-Algoritmai vehicle-routing (VRPPD) solver:

* the exact brute-force solvers (`src/src/algorithms/brute-force/index.ts`,
  the optimized `BruteForceAlgorithmJS`, and the unoptimized
  `BruteForceAlgorithm` built on `followRoute` / `generateAllVehicleRoutes` /
  `generateAllOrderAssignments`),
* the parallel simulated annealing worker and coordinator
  (`src/src/algorithms/p-sa/p-sa.worker.ts`, `src/src/algorithms/p-sa/index.ts`),
* the RCRS constructive initializer (`rcrs.ts`).

JavaScript numbers are modelled as rationals (`ℚ`); `Infinity` sentinels are
modelled with `Option`/`WithTop` as noted at each definition.  All recursive
functions are fuel-indexed structural recursions; each call site passes a fuel
value that provably dominates the recursion depth of the original program, so
the embedding computes exactly what the source computes.
-/

namespace VRP

/-- A geographic location (`locationJsonSchema` in `src/src/types/types.ts`):
latitude, longitude and a stable hash string. -/
structure Location where
  hashStr : String
  latitude : ℚ
  longitude : ℚ
deriving DecidableEq, Repr

/-- A vehicle (`vehicleJsonSchema`): id, start location, per-km price. -/
structure Vehicle where
  id : ℕ
  startLocation : Location
  priceKm : ℚ
deriving DecidableEq, Repr

/-- An order (`orderJsonSchema`): id, pickup/delivery locations, load factor. -/
structure Order where
  id : ℕ
  pickupLocation : Location
  deliveryLocation : Location
  loadFactor : ℚ
deriving DecidableEq, Repr

/-- A problem instance (`problemJsonSchema`): vehicles, orders and the
`constraints.maxTotalDistance` bound. -/
structure Problem where
  vehicles : List Vehicle
  orders : List Order
  maxTotalDistance : ℚ
deriving DecidableEq, Repr

/-- The two stop kinds of `routeStopJsonSchema.type`. -/
inductive StopType where
  | pickup
  | delivery
deriving DecidableEq, Repr

/-- A route stop (`routeStopJsonSchema`): order id and stop kind. -/
structure RouteStop where
  orderId : ℕ
  type : StopType
deriving DecidableEq, Repr

/-- A per-vehicle route with its cached aggregates (`vehicleRouteJsonSchema`). -/
structure VehicleRoute where
  stops : List RouteStop
  totalDistance : ℚ
  emptyDistance : ℚ
  totalPrice : ℚ
deriving DecidableEq, Repr

/-- A full solution (`ProblemSolution`): the `routes` record is modelled as an
association list from vehicle id to route, in insertion order. -/
structure ProblemSolution where
  routes : List (ℕ × VehicleRoute)
  totalDistance : ℚ
  emptyDistance : ℚ
  totalPrice : ℚ
deriving DecidableEq, Repr

/-- The injected distance function `DistanceCalculator`. -/
def DistanceCalculator : Type := Location → Location → ℚ

/-- A distance matrix, modelled as a total function on indices.  The source
stores a finite `number[][]`; every read performed by the algorithms is within
bounds, so the values outside the built range are irrelevant junk. -/
def DistanceMatrix : Type := ℕ → ℕ → ℚ

/-- A default order used to totalize partial lookups (`Array.prototype.find`
returning `undefined` is never hit on the paths the algorithms exercise). -/
def dummyOrder : Order :=
  { id := 0
    pickupLocation := { hashStr := "", latitude := 0, longitude := 0 }
    deliveryLocation := { hashStr := "", latitude := 0, longitude := 0 }
    loadFactor := 1 }

/-- A default vehicle used to totalize partial lookups, for the same reason. -/
def dummyVehicle : Vehicle :=
  { id := 0
    startLocation := { hashStr := "", latitude := 0, longitude := 0 }
    priceKm := 0 }

/-- Node of index `k` of the 2N×2N matrix: `orders[k/2].pickup` if `k` even,
else `orders[k/2].delivery` (`buildDistanceMatrix.getLoc`). -/
def matrixLoc (orders : List Order) (index : ℕ) : Location :=
  let o := orders.getD (index / 2) dummyOrder
  if index % 2 = 0 then o.pickupLocation else o.deliveryLocation

/-- `buildDistanceMatrix` (`src/src/utils/DistanceMatrix.ts`): the 2N×2N
matrix of pairwise node distances, with zero diagonal. -/
def buildDistanceMatrix (orders : List Order) (distanceCalc : DistanceCalculator) : DistanceMatrix :=
  fun i j => if i = j then 0 else distanceCalc (matrixLoc orders i) (matrixLoc orders j)

/-- `buildVehicleDistances`: `[vehicleIdx][orderIdx] ↦` distance from the
vehicle start to the order pickup. -/
def buildVehicleDistances (vehicles : List Vehicle) (orders : List Order)
    (distanceCalc : DistanceCalculator) : DistanceMatrix :=
  fun v o => distanceCalc ((vehicles.getD v dummyVehicle).startLocation)
    ((orders.getD o dummyOrder).pickupLocation)

/-! ## Subset iteration (`iterateAllSubsets.ts`) -/

/-- One step of the subset-iteration identity: `submask = (submask - 1) & remainingMask`. -/
def nextSub (remainingMask submask : ℕ) : ℕ := (submask - 1) &&& remainingMask

/-- The `while (submask > 0)` loop of `iterateAllSubsets`, fuel-indexed.
Since `nextSub remainingMask s < s` for `s > 0`, fuel `s₀` dominates the loop
starting at `s₀`. -/
def subChain (remainingMask : ℕ) : ℕ → ℕ → List ℕ
  | _, 0 => []
  | 0, _ + 1 => []
  | fuel + 1, s + 1 => (s + 1) :: subChain remainingMask fuel (nextSub remainingMask (s + 1))

/-- The canonical (fuel-saturated) chain starting at `submask`. -/
def subSeqFrom (remainingMask submask : ℕ) : List ℕ :=
  subChain remainingMask submask submask

/-- `iterateAllSubsets(assignmentMask, fullMask, cb)`: the list of submask
values passed to `cb`, in call order.  The loop starts at
`remainingMask = fullMask ^ assignmentMask` and steps with `nextSub`. -/
def iterateAllSubsets (assignmentMask fullMask : ℕ) : List ℕ :=
  let remainingMask := fullMask ^^^ assignmentMask
  subSeqFrom remainingMask remainingMask

/-- Population count (number of set bits), fuel-indexed (`fuel ≥ n` saturates). -/
def popCountAux : ℕ → ℕ → ℕ
  | _, 0 => 0
  | 0, _ + 1 => 0
  | fuel + 1, n + 1 => (n + 1) % 2 + popCountAux fuel ((n + 1) / 2)

/-- Number of set bits of `n`. -/
def popCount (n : ℕ) : ℕ := popCountAux n n

/-! ## Shared configuration types (`src/src/types.ts`) -/

/-- The three optimization targets (`OptimizationTarget`). -/
inductive OptimizationTarget where
  | EMPTY
  | DISTANCE
  | PRICE
deriving DecidableEq, Repr

/-- Neighborhood operator weights (`SimulatedAnnealingConfig.weights`). -/
structure SAWeights where
  shift : ℚ
  swap : ℚ
  shuffle : ℚ
deriving DecidableEq, Repr

/-- `SimulatedAnnealingConfig` with all fields present. -/
structure SimulatedAnnealingConfig where
  initialTemp : ℚ
  coolingRate : ℚ
  minTemp : ℚ
  maxIterations : ℕ
  batchSize : ℕ
  syncInterval : ℕ
  weights : Option SAWeights
deriving DecidableEq, Repr

/-- `Partial<SimulatedAnnealingConfig>`: every field optional. -/
structure PartialSAConfig where
  initialTemp : Option ℚ := none
  coolingRate : Option ℚ := none
  minTemp : Option ℚ := none
  maxIterations : Option ℕ := none
  batchSize : Option ℕ := none
  syncInterval : Option ℕ := none
  weights : Option SAWeights := none
deriving DecidableEq, Repr

/-- The worker's default `CONFIG` (`p-sa.worker.ts` lines 13–21). -/
def defaultWorkerConfig : SimulatedAnnealingConfig :=
  { initialTemp := 1500
    coolingRate := 99 / 100
    minTemp := 1 / 10
    maxIterations := 10000
    batchSize := 50
    syncInterval := 200
    weights := some { shift := 4 / 10, swap := 3 / 10, shuffle := 3 / 10 } }

/-- The JavaScript spread merge `CONFIG = { ...CONFIG, ...data.config }` where
`data.config : Partial<SimulatedAnnealingConfig> | undefined`. -/
def mergeConfig (base : SimulatedAnnealingConfig) (p : Option PartialSAConfig) :
    SimulatedAnnealingConfig :=
  match p with
  | none => base
  | some c =>
      { initialTemp := c.initialTemp.getD base.initialTemp
        coolingRate := c.coolingRate.getD base.coolingRate
        minTemp := c.minTemp.getD base.minTemp
        maxIterations := c.maxIterations.getD base.maxIterations
        batchSize := c.batchSize.getD base.batchSize
        syncInterval := c.syncInterval.getD base.syncInterval
        weights := match c.weights with
          | some w => some w
          | none => base.weights }

/-- `AlgorithmConfig`: injected distance function, optimization target and
optional SA overrides. -/
structure AlgorithmConfig where
  distanceCalc : DistanceCalculator
  target : OptimizationTarget
  saConfig : Option PartialSAConfig

/-- JS `Set<number>` membership-preserving add (`Set.prototype.add` appends a
fresh element at the end). -/
def setAdd (s : List ℕ) (x : ℕ) : List ℕ := if x ∈ s then s else s ++ [x]

/-- JS `Set.prototype.delete`. -/
def setDelete (s : List ℕ) (x : ℕ) : List ℕ := s.filter (fun y => y ≠ x)

/-! ## Optimized exact solver (`brute-force/index.ts`, `BruteForceAlgorithmJS`) -/

/-- The triple returned by `solveTSP` (`TSPResult`). -/
structure TSPResult where
  minDistanceRoute : VehicleRoute
  minEmptyRoute : VehicleRoute
  minPriceRoute : VehicleRoute
deriving DecidableEq, Repr

/-- The mutable best-so-far slots of `solveTSP`: `none` models the pair
(`Infinity`, `null`); value and route snapshot are always updated together in
the source, so one option holds both. -/
structure TspBests where
  bestDist : Option (ℚ × VehicleRoute)
  bestEmpty : Option (ℚ × VehicleRoute)
  bestPrice : Option (ℚ × VehicleRoute)
deriving DecidableEq, Repr

/-- `x < bestVal` where the best value is `Infinity` when no route is recorded. -/
def ltBest (x : ℚ) : Option (ℚ × VehicleRoute) → Bool
  | none => true
  | some (b, _) => x < b

/-- The read-only context of one `solveTSP` call. -/
structure TspEnv where
  vehicleIndex : ℕ
  orderIndices : List ℕ
  vehicle : Vehicle
  orders : List Order
  distancesMat : DistanceMatrix
  vehicleStartDistancesMat : DistanceMatrix
  targetMask : ℕ

/-- `tspRecursive` (`brute-force/index.ts` lines 280–392), fuel-indexed.  The
recursion adds one stop per level until `deliveredMask === targetMask`, so
fuel `2·|orderIndices| + 1` dominates every path.  The stack push/pop around
the recursive call is modelled by passing `stops ++ [stop]` down.  The
non-null assertion `lastNodeIndex!` in the delivery branch is totalized with
`getD 0`; it is never hit because a delivery is only reachable after a pickup. -/
def tspGo (env : TspEnv) :
    ℕ → Option ℕ → ℚ → ℚ → ℚ → ℚ → List RouteStop → ℕ → ℕ → TspBests → TspBests
  | 0, _, _, _, _, _, _, _, _, st => st
  | fuel + 1, lastNodeIndex, currentDist, currentEmpty, currentPrice, currentLoad,
      stops, pickedUpMask, deliveredMask, st =>
    if ¬ ltBest currentDist st.bestDist ∧ ¬ ltBest currentEmpty st.bestEmpty
        ∧ ¬ ltBest currentPrice st.bestPrice then
      st
    else if deliveredMask = env.targetMask then
      let snapshot : VehicleRoute :=
        { stops := stops
          totalDistance := currentDist
          emptyDistance := currentEmpty
          totalPrice := currentPrice }
      let st1 := if ltBest currentDist st.bestDist then
          { st with bestDist := some (currentDist, snapshot) } else st
      let st2 := if ltBest currentEmpty st1.bestEmpty then
          { st1 with bestEmpty := some (currentEmpty, snapshot) } else st1
      let st3 := if ltBest currentPrice st2.bestPrice then
          { st2 with bestPrice := some (currentPrice, snapshot) } else st2
      st3
    else
      env.orderIndices.foldl
        (fun st orderIndex =>
          let orderBit := 1 <<< orderIndex
          if pickedUpMask &&& orderBit = 0 then
            let order := env.orders.getD orderIndex dummyOrder
            let addedLoad := 1 / order.loadFactor
            if currentLoad + addedLoad > 1 then st
            else
              let legDistance := match lastNodeIndex with
                | none => env.vehicleStartDistancesMat env.vehicleIndex orderIndex
                | some last => env.distancesMat last (2 * orderIndex)
              let newDist := currentDist + legDistance
              let isMovingEmpty := pickedUpMask = deliveredMask
              let newEmpty := currentEmpty + (if isMovingEmpty then legDistance else 0)
              let newPrice := currentPrice + legDistance * env.vehicle.priceKm
              tspGo env fuel (some (2 * orderIndex)) newDist newEmpty newPrice
                (currentLoad + addedLoad) (stops ++ [{ orderId := order.id, type := .pickup }])
                (pickedUpMask ||| orderBit) deliveredMask st
          else if pickedUpMask &&& orderBit ≠ 0 ∧ deliveredMask &&& orderBit = 0 then
            let order := env.orders.getD orderIndex dummyOrder
            let removedLoad := 1 / order.loadFactor
            let legDistance := env.distancesMat (lastNodeIndex.getD 0) (2 * orderIndex + 1)
            let newDist := currentDist + legDistance
            let newEmpty := currentEmpty
            let newPrice := currentPrice + legDistance * env.vehicle.priceKm
            tspGo env fuel (some (2 * orderIndex + 1)) newDist newEmpty newPrice
              (currentLoad - removedLoad) (stops ++ [{ orderId := order.id, type := .delivery }])
              pickedUpMask (deliveredMask ||| orderBit) st
          else st)
        st

/-- The return statement of `solveTSP`: `null` when any best route is still
`null`, else the `TSPResult` triple. -/
def tspCollect (st : TspBests) : Option TSPResult :=
  match st.bestDist, st.bestEmpty, st.bestPrice with
  | some (_, dr), some (_, er), some (_, pr) =>
      some { minDistanceRoute := dr, minEmptyRoute := er, minPriceRoute := pr }
  | _, _, _ => none

/-- `solveTSP` (`brute-force/index.ts` lines 261–403): returns `none` when no
feasible ordering exists, mirroring the `null` return. -/
def solveTSP (distancesMat vehicleStartDistancesMat : DistanceMatrix)
    (vehicleIndex : ℕ) (orderIndices : List ℕ) (vehicle : Vehicle) (orders : List Order) :
    Option TSPResult :=
  let targetMask := orderIndices.foldl (fun m idx => m ||| (1 <<< idx)) 0
  let env : TspEnv :=
    { vehicleIndex := vehicleIndex
      orderIndices := orderIndices
      vehicle := vehicle
      orders := orders
      distancesMat := distancesMat
      vehicleStartDistancesMat := vehicleStartDistancesMat
      targetMask := targetMask }
  tspCollect (tspGo env (2 * orderIndices.length + 1) none 0 0 0 0 [] 0 0
    { bestDist := none, bestEmpty := none, bestPrice := none })

/-- `getBestRoute`: decodes the order bitmask to indices and runs the TSP
subsolver.  The memo cache of the source stores the result of exactly this
pure computation keyed by `(vehicleIndex << 20) | mask`, so it is
semantics-preserving and omitted here. -/
def getBestRoute (distancesMat vehicleStartDistancesMat : DistanceMatrix)
    (vehicleIndex mask : ℕ) (vehicles : List Vehicle) (orders : List Order) :
    Option TSPResult :=
  let orderIndices := (List.range orders.length).filter (fun i => (mask >>> i) &&& 1 = 1)
  solveTSP distancesMat vehicleStartDistancesMat vehicleIndex orderIndices
    (vehicles.getD vehicleIndex dummyVehicle) orders

/-- Accumulators threaded through the assignment search (`AccumulatedSolution`). -/
structure AccumulatedSolution where
  distSum : ℚ
  priceSum : ℚ
  emptySum : ℚ
deriving DecidableEq, Repr

/-- Selector for `reconstructSolution`'s `type` parameter. -/
inductive BestKind where
  | dist
  | empty
  | price
deriving DecidableEq, Repr

/-- Mutable global-best fields of `BruteForceAlgorithmJS`.  `none` models
`Infinity` for the values and `null` for the solutions. -/
structure BFState where
  bestDistance : Option ℚ
  bestPrice : Option ℚ
  bestEmpty : Option ℚ
  bestDistanceSolution : Option ProblemSolution
  bestPriceSolution : Option ProblemSolution
  bestEmptySolution : Option ProblemSolution
deriving DecidableEq, Repr

/-- `x < best` where `best = Infinity` when `none`. -/
def ltBestQ (x : ℚ) : Option ℚ → Bool
  | none => true
  | some b => x < b

/-- `reconstructSolution`: rebuilds a `ProblemSolution` from the current
`assignments` vector, re-reading each vehicle's cached TSP result. -/
def reconstructSolution (distancesMat vehicleStartDistancesMat : DistanceMatrix)
    (assignments : List ℕ) (vehicles : List Vehicle) (orders : List Order)
    (kind : BestKind) : ProblemSolution :=
  (List.range vehicles.length).foldl
    (fun acc i =>
      let mask := assignments.getD i 0
      if mask > 0 then
        match getBestRoute distancesMat vehicleStartDistancesMat i mask vehicles orders with
        | some cached =>
            let r := match kind with
              | .dist => cached.minDistanceRoute
              | .price => cached.minPriceRoute
              | .empty => cached.minEmptyRoute
            { acc with
              routes := acc.routes ++ [((vehicles.getD i dummyVehicle).id, r)]
              totalDistance := acc.totalDistance + r.totalDistance
              totalPrice := acc.totalPrice + r.totalPrice
              emptyDistance := acc.emptyDistance + r.emptyDistance }
        | none => acc
      else acc)
    { routes := [], totalDistance := 0, totalPrice := 0, emptyDistance := 0 }

/-- `updateBestSolutions`: the three independent global-best updates. -/
def updateBestSolutions (distancesMat vehicleStartDistancesMat : DistanceMatrix)
    (current : AccumulatedSolution) (assignments : List ℕ) (vehicles : List Vehicle)
    (orders : List Order) (st : BFState) : BFState :=
  let st1 := if ltBestQ current.distSum st.bestDistance then
      { st with
        bestDistance := some current.distSum
        bestDistanceSolution := some (reconstructSolution distancesMat
          vehicleStartDistancesMat assignments vehicles orders .dist) }
    else st
  let st2 := if ltBestQ current.priceSum st1.bestPrice then
      { st1 with
        bestPrice := some current.priceSum
        bestPriceSolution := some (reconstructSolution distancesMat
          vehicleStartDistancesMat assignments vehicles orders .price) }
    else st1
  let st3 := if ltBestQ current.emptySum st2.bestEmpty then
      { st2 with
        bestEmpty := some current.emptySum
        bestEmptySolution := some (reconstructSolution distancesMat
          vehicleStartDistancesMat assignments vehicles orders .empty) }
    else st2
  st3

/-- `solveRecursive` (`brute-force/index.ts` lines 180–235), fuel-indexed on
the vehicle depth (each recursive call moves to `vehicleIndex + 1`; fuel
`|vehicles| + 1` dominates).  The source's in-place `assignments[vehicleIndex] =
mask` followed by a reset to `0` is modelled by handing the subset calls
`assignments.set vehicleIndex mask` and the empty-subset call the unchanged
vector (its entry at `vehicleIndex` is still `0`). -/
def solveVehicles (distancesMat vehicleStartDistancesMat : DistanceMatrix)
    (vehicles : List Vehicle) (orders : List Order) (fullMask : ℕ) :
    ℕ → ℕ → ℕ → AccumulatedSolution → List ℕ → BFState → BFState
  | 0, _, _, _, _, st => st
  | fuel + 1, vehicleIndex, assignmentMask, currentSolution, assignments, st =>
    if ¬ ltBestQ currentSolution.distSum st.bestDistance
        ∧ ¬ ltBestQ currentSolution.priceSum st.bestPrice
        ∧ ¬ ltBestQ currentSolution.emptySum st.bestEmpty then
      st
    else if assignmentMask = fullMask then
      updateBestSolutions distancesMat vehicleStartDistancesMat currentSolution
        assignments vehicles orders st
    else if vehicleIndex ≥ vehicles.length then
      st
    else
      let st1 := (iterateAllSubsets assignmentMask fullMask).foldl
        (fun st mask =>
          match getBestRoute distancesMat vehicleStartDistancesMat vehicleIndex mask
              vehicles orders with
          | some routeResult =>
              solveVehicles distancesMat vehicleStartDistancesMat vehicles orders fullMask
                fuel (vehicleIndex + 1) (assignmentMask ||| mask)
                { distSum := currentSolution.distSum + routeResult.minDistanceRoute.totalDistance
                  priceSum := currentSolution.priceSum + routeResult.minPriceRoute.totalPrice
                  emptySum := currentSolution.emptySum + routeResult.minEmptyRoute.emptyDistance }
                (assignments.set vehicleIndex mask) st
          | none => st)
        st
      solveVehicles distancesMat vehicleStartDistancesMat vehicles orders fullMask
        fuel (vehicleIndex + 1) assignmentMask currentSolution assignments st1

/-- The final solution record of the optimized solver.  Each slot is `none`
when the corresponding best is still `null`, in which case the source
substitutes the `emptySolution` sentinel `{routes: {}, totalDistance: ∞,
emptyDistance: ∞, totalPrice: ∞}`. -/
structure AlgorithmSolution where
  bestDistanceSolution : Option ProblemSolution
  bestPriceSolution : Option ProblemSolution
  bestEmptySolution : Option ProblemSolution
deriving DecidableEq, Repr

/-- The single error kind of the exact solvers. -/
inductive BFError where
  | problemTooLarge
deriving DecidableEq, Repr

def MAX_PROBLEM_SIZE : ℕ := 7

/-- `BruteForceAlgorithmJS.solveSync` (`brute-force/index.ts` lines 80–122).
Note the destructuring `{ orders, vehicles }`: the `constraints` field (and so
`maxTotalDistance`) is never read. -/
def solveSync (p : Problem) (config : AlgorithmConfig) :
    Except BFError AlgorithmSolution :=
  if p.orders.length > MAX_PROBLEM_SIZE ∨ p.vehicles.length > MAX_PROBLEM_SIZE then
    .error .problemTooLarge
  else
    let N := p.orders.length
    let V := p.vehicles.length
    let distancesMat := buildDistanceMatrix p.orders config.distanceCalc
    let vehicleStartDistancesMat := buildVehicleDistances p.vehicles p.orders config.distanceCalc
    let st := solveVehicles distancesMat vehicleStartDistancesMat p.vehicles p.orders
      ((1 <<< N) - 1) (V + 1) 0 0 { distSum := 0, priceSum := 0, emptySum := 0 }
      (List.replicate V 0)
      { bestDistance := none, bestPrice := none, bestEmpty := none,
        bestDistanceSolution := none, bestPriceSolution := none, bestEmptySolution := none }
    .ok
      { bestDistanceSolution := st.bestDistanceSolution
        bestPriceSolution := st.bestPriceSolution
        bestEmptySolution := st.bestEmptySolution }

/-- The size guard of `BruteForceAlgorithmRust.solve` (`brute-force/index.ts`
lines 48–54): identical condition, thrown before delegating to the native
solver. -/
def solveRustGuard (p : Problem) : Except BFError Unit :=
  if p.orders.length > MAX_PROBLEM_SIZE ∨ p.vehicles.length > MAX_PROBLEM_SIZE then
    .error .problemTooLarge
  else .ok ()

/-! ## Unoptimized exact solver (`brute-force/unoptimized/`) -/

/-- `ExtendedRouteStop` (`generateAllVehicleRoutes.ts`): a route stop enriched
with its location and the order's load factor. -/
structure ExtendedRouteStop where
  orderId : ℕ
  type : StopType
  location : Location
  loadFactor : ℚ
deriving DecidableEq, Repr

/-- `partitionOrders`: the pickup and delivery stop lists for the given order
ids (in id-set iteration order). -/
def partitionOrders (orders : List Order) (orderIds : List ℕ) :
    List ExtendedRouteStop × List ExtendedRouteStop :=
  (orderIds.map (fun oid =>
      let o := (orders.find? (fun o => o.id = oid)).getD dummyOrder
      { orderId := oid, type := StopType.pickup, location := o.pickupLocation,
        loadFactor := o.loadFactor }),
   orderIds.map (fun oid =>
      let o := (orders.find? (fun o => o.id = oid)).getD dummyOrder
      { orderId := oid, type := StopType.delivery, location := o.deliveryLocation,
        loadFactor := o.loadFactor }))

/-- All ways of picking one element out of a list together with the remainder
(models `remainingLocations.splice(i, 1)` over all loop indices `i`, in index
order). -/
def selections {α : Type} : List α → List (α × List α)
  | [] => []
  | x :: xs => (x, xs) :: (selections xs).map (fun p => (p.1, x :: p.2))

/-- The `backtrack` recursion of `generateAllVehicleRoutes`, fuel-indexed by
the length of `remainingLocations` (each recursive call removes exactly one
element). -/
def backtrack (total : ℕ) :
    ℕ → List ExtendedRouteStop → List ExtendedRouteStop → List ℕ →
      List (List ExtendedRouteStop)
  | fuel, currentRoute, remainingLocations, inTransitItems =>
    if currentRoute.length = total then [currentRoute]
    else match fuel with
      | 0 => []
      | fuel + 1 =>
          (selections remainingLocations).flatMap (fun sel =>
            let currentLocation := sel.1
            let newRemainingLocations := sel.2
            if currentLocation.type = StopType.delivery
                ∧ currentLocation.orderId ∉ inTransitItems then
              []
            else
              let newInTransitItems :=
                if currentLocation.type = StopType.pickup then
                  setAdd inTransitItems currentLocation.orderId
                else
                  setDelete inTransitItems currentLocation.orderId
              backtrack total fuel (currentRoute ++ [currentLocation])
                newRemainingLocations newInTransitItems)

/-- `generateAllVehicleRoutes` (`generateAllVehicleRoutes.ts` lines 228–280):
all pickup-before-delivery interleavings of the 2N stops of the given orders.
(The source's defensive length-mismatch throw is unreachable: both partitions
have `orderIds.length` elements.) -/
def generateAllVehicleRoutes (orders : List Order) (orderIds : List ℕ) :
    List (List ExtendedRouteStop) :=
  let parts := partitionOrders orders orderIds
  let allLocations := parts.1 ++ parts.2
  backtrack allLocations.length allLocations.length [] allLocations []

/-- The two constraint-violation errors of `followRoute` (`BRUTE_FORCE_ERRORS`). -/
inductive BfRouteError where
  | capacityExceeded
  | maxDistanceExceeded
deriving DecidableEq, Repr

/-- The `for (let i = 1; ...)` loop of `followRoute`: walks consecutive legs,
accumulating total and empty distance, checking `maxTotalDistance` and the
capacity ceiling `1` after every step. -/
def followRouteLoop (maxTotalDistance : ℚ) (distanceCalc : DistanceCalculator) :
    List ExtendedRouteStop → ExtendedRouteStop → ℚ → ℚ → ℚ → List ℕ →
      Except BfRouteError (ℚ × ℚ)
  | [], _, totalDistance, emptyDistance, _, _ => .ok (totalDistance, emptyDistance)
  | loc :: rest, prev, totalDistance, emptyDistance, currentLoad, inTransit =>
      let currentDistance := distanceCalc prev.location loc.location
      let newTotal := totalDistance + currentDistance
      if newTotal > maxTotalDistance then .error .maxDistanceExceeded
      else
        let newLoad := if loc.type = StopType.pickup then
            currentLoad + 1 / loc.loadFactor
          else
            currentLoad - 1 / loc.loadFactor
        if newLoad > 1 then .error .capacityExceeded
        else
          let newInTransit := if prev.type = StopType.pickup then
              setAdd inTransit prev.orderId
            else
              setDelete inTransit prev.orderId
          let newEmpty := if newInTransit.length = 0 then
              emptyDistance + currentDistance
            else emptyDistance
          followRouteLoop maxTotalDistance distanceCalc rest loc newTotal newEmpty
            newLoad newInTransit

/-- `followRoute` (`followRoute.ts` lines 361–419): simulates a vehicle along
the stop sequence, returning the aggregates or throwing a constraint error. -/
def followRoute (vehicle : Vehicle) (locations : List ExtendedRouteStop)
    (maxTotalDistance : ℚ) (distanceCalc : DistanceCalculator) :
    Except BfRouteError VehicleRoute :=
  match locations with
  | [] => .ok { stops := [], totalDistance := 0, emptyDistance := 0, totalPrice := 0 }
  | first :: rest =>
      let totalDistance := distanceCalc vehicle.startLocation first.location
      let emptyDistance := totalDistance
      let currentLoad := 1 / first.loadFactor
      if totalDistance > maxTotalDistance then .error .maxDistanceExceeded
      else if currentLoad > 1 then .error .capacityExceeded
      else
        match followRouteLoop maxTotalDistance distanceCalc rest first totalDistance
            emptyDistance currentLoad [] with
        | .error e => .error e
        | .ok (total, empty) =>
            .ok
              { stops := locations.map (fun l => { orderId := l.orderId, type := l.type })
                totalDistance := total
                emptyDistance := empty
                totalPrice := total * vehicle.priceKm }

/-- Adds `oid` to vehicle `vid`'s order set inside an assignment
(`newAssignment.get(vehicle.id)!.add(currentOrder.id)`). -/
def assignAdd (assignment : List (ℕ × List ℕ)) (vid oid : ℕ) : List (ℕ × List ℕ) :=
  assignment.map (fun p => if p.1 = vid then (p.1, setAdd p.2 oid) else p)

/-- `generateAllOrderAssignments` (`generateAllOrderAssignments.ts` lines
34–58): the Cartesian distribution of every order to exactly one vehicle.  An
assignment is an association list `vehicleId ↦ ordered order-id set`. -/
def generateAllOrderAssignments : List Order → List Vehicle → List (List (ℕ × List ℕ))
  | [], vehicles => [vehicles.map (fun v => (v.id, ([] : List ℕ)))]
  | currentOrder :: remainingOrders, vehicles =>
      (generateAllOrderAssignments remainingOrders vehicles).flatMap
        (fun currentAssignment =>
          vehicles.map (fun vehicle => assignAdd currentAssignment vehicle.id currentOrder.id))

/-- Per-vehicle minimum tracking of the unoptimized solver's inner loop:
`minRouteDistance/minRouteEmptyDistance/minRoutePrice` start at `Infinity`
(`none`), each paired with the route that attained it (the entry written into
the corresponding solution's `routes` map). -/
structure UnoptMins where
  minDist : Option (ℚ × VehicleRoute)
  minEmpty : Option (ℚ × VehicleRoute)
  minPrice : Option (ℚ × VehicleRoute)
deriving DecidableEq, Repr

/-- The `for (const route of routes)` loop: simulate every permutation,
skipping constraint violations, and track the three per-vehicle minima. -/
def bestRoutesForVehicle (vehicle : Vehicle) (routes : List (List ExtendedRouteStop))
    (maxTotalDistance : ℚ) (distanceCalc : DistanceCalculator) : UnoptMins :=
  routes.foldl
    (fun st route =>
      match followRoute vehicle route maxTotalDistance distanceCalc with
      | .error _ => st
      | .ok r =>
          let st1 := if ltBest r.totalDistance st.minDist then
              { st with minDist := some (r.totalDistance, r) } else st
          let st2 := if ltBest r.emptyDistance st1.minEmpty then
              { st1 with minEmpty := some (r.emptyDistance, r) } else st1
          let st3 := if ltBest r.totalPrice st2.minPrice then
              { st2 with minPrice := some (r.totalPrice, r) } else st2
          st3)
    { minDist := none, minEmpty := none, minPrice := none }

/-- Appends vehicle `vid`'s best route (when finite) to a solution under
construction, mirroring the `Number.isFinite(min...)` accumulation block. -/
def accumulateRoute (acc : ProblemSolution) (vid : ℕ) :
    Option (ℚ × VehicleRoute) → ProblemSolution
  | none => acc
  | some (_, r) =>
      { routes := acc.routes ++ [(vid, r)]
        totalDistance := acc.totalDistance + r.totalDistance
        emptyDistance := acc.emptyDistance + r.emptyDistance
        totalPrice := acc.totalPrice + r.totalPrice }

/-- The per-assignment body of `BruteForceAlgorithm.solve` (unoptimized): for
each vehicle of the assignment, enumerate and simulate all routes, then build
the three candidate solutions. -/
def solutionsForAssignment (orders : List Order) (vehicles : List Vehicle)
    (maxTotalDistance : ℚ) (distanceCalc : DistanceCalculator)
    (assignment : List (ℕ × List ℕ)) :
    ProblemSolution × ProblemSolution × ProblemSolution :=
  assignment.foldl
    (fun acc entry =>
      let vehicleId := entry.1
      let orderIds := entry.2
      let routes := generateAllVehicleRoutes orders orderIds
      let vehicle := (vehicles.find? (fun v => v.id = vehicleId)).getD dummyVehicle
      let mins := bestRoutesForVehicle vehicle routes maxTotalDistance distanceCalc
      (accumulateRoute acc.1 vehicleId mins.minDist,
       accumulateRoute acc.2.1 vehicleId mins.minEmpty,
       accumulateRoute acc.2.2 vehicleId mins.minPrice))
    ({ routes := [], totalDistance := 0, emptyDistance := 0, totalPrice := 0 },
     { routes := [], totalDistance := 0, emptyDistance := 0, totalPrice := 0 },
     { routes := [], totalDistance := 0, emptyDistance := 0, totalPrice := 0 })

/-- Global bests of the unoptimized solver (`none` = `Infinity` / `null`). -/
structure UnoptState where
  bestDistance : Option ℚ
  bestEmpty : Option ℚ
  bestPrice : Option ℚ
  bestDistanceSolution : Option ProblemSolution
  bestEmptySolution : Option ProblemSolution
  bestPriceSolution : Option ProblemSolution
deriving DecidableEq, Repr

/-- `BruteForceAlgorithm.solve` (`unoptimized/index.ts` lines 41–174).  Note
the comparisons `totalDistance > 0 && totalDistance < best`: a candidate with
zero aggregate is never adopted.  Slots that stay `null` are replaced by the
`emptySolution` sentinel, modelled as `none`. -/
def unoptimizedSolve (p : Problem) (config : AlgorithmConfig) : AlgorithmSolution :=
  let allOrderAssignments := generateAllOrderAssignments p.orders p.vehicles
  let final := allOrderAssignments.foldl
    (fun st assignment =>
      let sols := solutionsForAssignment p.orders p.vehicles p.maxTotalDistance
        config.distanceCalc assignment
      let currentDistanceSolution := sols.1
      let currentEmptySolution := sols.2.1
      let currentPriceSolution := sols.2.2
      let st1 := if currentDistanceSolution.totalDistance > 0
          ∧ ltBestQ currentDistanceSolution.totalDistance st.bestDistance then
          { st with bestDistance := some currentDistanceSolution.totalDistance
                    bestDistanceSolution := some currentDistanceSolution }
        else st
      let st2 := if currentEmptySolution.emptyDistance > 0
          ∧ ltBestQ currentEmptySolution.emptyDistance st1.bestEmpty then
          { st1 with bestEmpty := some currentEmptySolution.emptyDistance
                     bestEmptySolution := some currentEmptySolution }
        else st1
      let st3 := if currentPriceSolution.totalPrice > 0
          ∧ ltBestQ currentPriceSolution.totalPrice st2.bestPrice then
          { st2 with bestPrice := some currentPriceSolution.totalPrice
                     bestPriceSolution := some currentPriceSolution }
        else st2
      st3)
    ({ bestDistance := none, bestEmpty := none, bestPrice := none,
       bestDistanceSolution := none, bestEmptySolution := none,
       bestPriceSolution := none } : UnoptState)
  { bestDistanceSolution := final.bestDistanceSolution
    bestPriceSolution := final.bestPriceSolution
    bestEmptySolution := final.bestEmptySolution }

/-! ## PSA worker (`p-sa.worker.ts`) -/

/-- Energies are JS numbers that may be `Infinity`; modelled as `WithTop ℚ`. -/
abbrev Energy : Type := WithTop ℚ

/-- `orderMap.get(id)!`: the index of an order id inside `problem.orders`
(the map is built by `problem.orders.forEach((o, i) => orderMap.set(o.id, i))`;
for ids actually present this is the first index with that id). -/
def orderIndexOf (problem : Problem) (oid : ℕ) : ℕ :=
  problem.orders.findIdx (fun o => o.id = oid)

/-- `Number.EPSILON`. -/
def NumberEpsilon : ℚ := 1 / 2 ^ 52

/-- The scan of `checkRouteConstraints` over the stops: returns the final
running load, or `none` if some prefix fails (`return false`).  Mirrors the
source order: apply the load change, record/require pickup membership, then
check `currentLoad > MAX_LOAD` with `MAX_LOAD = 1.0`.  The non-null assertion
on the order lookup is totalized with `dummyOrder`. -/
def checkRouteLoop (problem : Problem) :
    List RouteStop → ℚ → List ℕ → Option ℚ
  | [], currentLoad, _ => some currentLoad
  | stop :: rest, currentLoad, pickedUp =>
      let order := (problem.orders.find? (fun o => o.id = stop.orderId)).getD dummyOrder
      let loadChange := 1 / order.loadFactor
      if stop.type = StopType.pickup then
        let newLoad := currentLoad + loadChange
        if newLoad > 1 then none
        else checkRouteLoop problem rest newLoad (setAdd pickedUp order.id)
      else
        if order.id ∉ pickedUp then none
        else
          let newLoad := currentLoad - loadChange
          if newLoad > 1 then none
          else checkRouteLoop problem rest newLoad pickedUp

/-- `checkRouteConstraints` (`p-sa.worker.ts` lines 210–240).  The trailing
balance test is `Math.abs(currentLoad) < Number.EPSILON`.  The `vehicle`
parameter is received but never read, exactly as in the source. -/
def checkRouteConstraints (problem : Problem) (route : VehicleRoute)
    (vehicle : Vehicle) : Bool :=
  if route.stops.length = 0 then true
  else
    match checkRouteLoop problem route.stops 0 [] with
    | none => false
    | some currentLoad => |currentLoad| < NumberEpsilon

/-- `isValidSolution`: every route whose vehicle id resolves must pass
`checkRouteConstraints` (routes with unknown vehicle ids are skipped,
mirroring `if (vehicle && ...)`). -/
def isValidSolution (problem : Problem) (solution : ProblemSolution) : Bool :=
  solution.routes.all (fun entry =>
    match problem.vehicles.find? (fun v => v.id = entry.1) with
    | some vehicle => checkRouteConstraints problem entry.2 vehicle
    | none => true)

/-- `calculateEnergy`: `Infinity` (`⊤`) for invalid solutions, else the metric
selected by the target. -/
def calculateEnergy (problem : Problem) (target : OptimizationTarget)
    (solution : ProblemSolution) : Energy :=
  if ¬ isValidSolution problem solution then (⊤ : WithTop ℚ)
  else match target with
    | .EMPTY => ((solution.emptyDistance : ℚ) : WithTop ℚ)
    | .DISTANCE => ((solution.totalDistance : ℚ) : WithTop ℚ)
    | .PRICE => ((solution.totalPrice : ℚ) : WithTop ℚ)

/-- `structuredClone`: a deep copy, the identity on immutable values. -/
def cloneSolution (solution : ProblemSolution) : ProblemSolution := solution

/-- The worker's module-level mutable state (`p-sa.worker.ts` lines 12–36). -/
structure WorkerState where
  config : SimulatedAnnealingConfig
  target : OptimizationTarget
  problem : Problem
  distMatrix : DistanceMatrix
  vehicleStartMatrix : DistanceMatrix
  currentSolution : ProblemSolution
  currentEnergy : Energy
  bestLocalSolution : ProblemSolution
  bestLocalEnergy : Energy
  temperature : ℚ
  iterationCount : ℕ
  isRunning : Bool

/-- `handleInfluence` (`p-sa.worker.ts` lines 89–111).  The impure
`generateNeighbor` (one random mutation followed by `recalculateStats`) is
abstracted as the oracle `gen`; everything else is verbatim. -/
def handleInfluence (gen : ProblemSolution → ProblemSolution) (st : WorkerState)
    (neighborSolution : ProblemSolution) (neighborEnergy : Energy) : WorkerState :=
  if neighborEnergy < st.currentEnergy then
    let st1 := { st with
      currentSolution := cloneSolution neighborSolution
      currentEnergy := neighborEnergy }
    let mutated := gen st1.currentSolution
    let st2 := if isValidSolution st1.problem mutated then
        { st1 with
          currentSolution := mutated
          currentEnergy := calculateEnergy st1.problem st1.target mutated }
      else st1
    let st3 := if st2.currentEnergy < st2.bestLocalEnergy then
        { st2 with
          bestLocalSolution := cloneSolution st2.currentSolution
          bestLocalEnergy := st2.currentEnergy }
      else st2
    { st3 with temperature := max st3.temperature 50 }
  else st

/-- The `INIT` payload sent by the coordinator (`p-sa/index.ts` lines 116–128).
`initialTemp` is the jittered temperature the coordinator includes in the
message; the worker's `initialize` never reads it. -/
structure InitData where
  config : Option PartialSAConfig
  target : OptimizationTarget
  problem : Problem
  distMatrix : DistanceMatrix
  vehicleStartMatrix : DistanceMatrix
  initialSolution : ProblemSolution
  initialTemp : ℚ

/-- `initialize` (`p-sa.worker.ts` lines 68–87): merges the config override,
clones the initial solution, and sets `temperature = CONFIG.initialTemp`.
`iterationCount` and `isRunning` are untouched.  The field `data.initialTemp`
is not consulted. -/
def initWorker (data : InitData) (st : WorkerState) : WorkerState :=
  let newConfig := mergeConfig st.config data.config
  let newCurrent := cloneSolution data.initialSolution
  let newEnergy := calculateEnergy data.problem data.target newCurrent
  { st with
    target := data.target
    problem := data.problem
    distMatrix := data.distMatrix
    vehicleStartMatrix := data.vehicleStartMatrix
    config := newConfig
    currentSolution := newCurrent
    temperature := newConfig.initialTemp
    currentEnergy := newEnergy
    bestLocalSolution := cloneSolution newCurrent
    bestLocalEnergy := newEnergy }

/-- `startAnnealing` (`p-sa.worker.ts` lines 113–117): a no-op when already
running; otherwise sets `isRunning` and kicks off `runBatch`.  The returned
flag records whether `runBatch` was invoked (its asynchronous batch loop is
outside the scope of the message-dispatch model). -/
def startAnnealing (st : WorkerState) : WorkerState × Bool :=
  if st.isRunning then (st, false)
  else ({ st with isRunning := true }, true)

/-- The worker messages relevant to the dispatch model. -/
inductive WorkerMsg where
  | init (data : InitData)
  | influenceUpdate (solution : ProblemSolution) (energy : Energy)

/-- The body of the `'message'` listener (`p-sa.worker.ts` lines 39–50):
`INIT ⇒ initialize; startAnnealing`, `INFLUENCE_UPDATE ⇒ handleInfluence`.
Returns the new state and the list of `runBatch` invocations it triggered. -/
def mainHandler (gen : ProblemSolution → ProblemSolution) (msg : WorkerMsg)
    (st : WorkerState) : WorkerState × List Bool :=
  match msg with
  | .init data =>
      let st1 := initWorker data st
      let res := startAnnealing st1
      (res.1, [res.2])
  | .influenceUpdate solution energy =>
      (handleInfluence gen st solution energy, [])

/-- Delivery of one message to the worker.  `parentPort.on('message', …)` is
registered twice with the identical listener (`p-sa.worker.ts` lines 38–51 and
53–66), so Node invokes the listener twice, in registration order, for every
delivered message. -/
def dispatchMessage (gen : ProblemSolution → ProblemSolution) (msg : WorkerMsg)
    (st : WorkerState) : WorkerState × List Bool :=
  let r1 := mainHandler gen msg st
  let r2 := mainHandler gen msg r1.1
  (r2.1, r1.2 ++ r2.2)

/-- The leg scan of `recalculateStats` (`p-sa.worker.ts` lines 347–362) over
consecutive stop pairs: accumulates distance, adds a leg to the empty distance
when `Math.abs(load) < 0.001`, and updates the load with the second stop. -/
def recalcLegs (problem : Problem) (distMatrix : DistanceMatrix) :
    List RouteStop → ℚ → ℚ → ℚ → ℚ × ℚ
  | s1 :: s2 :: rest, load, d, e =>
      let o1 := (problem.orders.find? (fun o => o.id = s1.orderId)).getD dummyOrder
      let o2 := (problem.orders.find? (fun o => o.id = s2.orderId)).getD dummyOrder
      let u := orderIndexOf problem o1.id * 2 + (if s1.type = StopType.delivery then 1 else 0)
      let v := orderIndexOf problem o2.id * 2 + (if s2.type = StopType.delivery then 1 else 0)
      let leg := distMatrix u v
      let newE := if |load| < 1 / 1000 then e + leg else e
      let newLoad := if s2.type = StopType.pickup then load + 1 / o2.loadFactor
        else load - 1 / o2.loadFactor
      recalcLegs problem distMatrix (s2 :: rest) newLoad (d + leg) newE
  | _, _, d, e => (d, e)

/-- The per-route body of `recalculateStats` (`p-sa.worker.ts` lines 323–375):
recomputes `totalDistance`, `emptyDistance` and `totalPrice = d · priceKm`
from scratch over the matrices. -/
def recalculateRouteStats (problem : Problem)
    (distMatrix vehicleStartMatrix : DistanceMatrix) (vehicle : Vehicle)
    (stops : List RouteStop) : VehicleRoute :=
  let de : ℚ × ℚ := match stops with
    | [] => (0, 0)
    | first :: _ =>
        let vIdx := problem.vehicles.findIdx (fun v => v = vehicle)
        let firstO := (problem.orders.find? (fun o => o.id = first.orderId)).getD dummyOrder
        let startD := vehicleStartMatrix vIdx (orderIndexOf problem firstO.id)
        let load := 1 / firstO.loadFactor
        recalcLegs problem distMatrix stops load startD startD
  { stops := stops
    totalDistance := de.1
    emptyDistance := de.2
    totalPrice := de.1 * vehicle.priceKm }

/-! ## RCRS initializer (`rcrs.ts`) -/

/-- The scan of `isValidRoute` (`rcrs.ts` lines 191–220): tracks picked-up and
delivered id sets and the running load; fails on unknown ids, duplicate
pickups, deliveries without (or after) their pickup, and any prefix load
exceeding `MAX_LOAD + 1e-6`. -/
def isValidRouteLoop (problem : Problem) :
    List RouteStop → List ℕ → List ℕ → ℚ → Option (List ℕ × List ℕ)
  | [], pickedUp, delivered, _ => some (pickedUp, delivered)
  | stop :: rest, pickedUp, delivered, currentLoad =>
      match problem.orders.find? (fun o => o.id = stop.orderId) with
      | none => none
      | some order =>
          let loadChange := 1 / order.loadFactor
          if stop.type = StopType.pickup then
            if order.id ∈ pickedUp then none
            else
              let newLoad := currentLoad + loadChange
              if newLoad > 1 + 1 / 1000000 then none
              else isValidRouteLoop problem rest (setAdd pickedUp order.id) delivered newLoad
          else
            if order.id ∉ pickedUp then none
            else if order.id ∈ delivered then none
            else
              let newLoad := currentLoad - loadChange
              if newLoad > 1 + 1 / 1000000 then none
              else isValidRouteLoop problem rest pickedUp (setAdd delivered order.id) newLoad

/-- `isValidRoute` (`rcrs.ts`): the scan must succeed and end with as many
deliveries as pickups. -/
def isValidRoute (stops : List RouteStop) (problem : Problem) : Bool :=
  match isValidRouteLoop problem stops [] [] 0 with
  | none => false
  | some sets => sets.1.length = sets.2.length

/-- The leg scan of `updateRouteStats` (`rcrs.ts` lines 246–268); identical to
`recalcLegs` except that the empty-leg tolerance is `1e-6`. -/
def updateLegs (problem : Problem) (distMatrix : DistanceMatrix) :
    List RouteStop → ℚ → ℚ → ℚ → ℚ × ℚ
  | s1 :: s2 :: rest, load, d, e =>
      let u := orderIndexOf problem s1.orderId * 2
        + (if s1.type = StopType.delivery then 1 else 0)
      let v := orderIndexOf problem s2.orderId * 2
        + (if s2.type = StopType.delivery then 1 else 0)
      let leg := distMatrix u v
      let newE := if |load| < 1 / 1000000 then e + leg else e
      let nextOrder := (problem.orders.find? (fun o => o.id = s2.orderId)).getD dummyOrder
      let newLoad := if s2.type = StopType.pickup then load + 1 / nextOrder.loadFactor
        else load - 1 / nextOrder.loadFactor
      updateLegs problem distMatrix (s2 :: rest) newLoad (d + leg) newE
  | _, _, d, e => (d, e)

/-- `updateRouteStats` (`rcrs.ts` lines 222–274): recomputes the aggregates of
one route after an insertion; `totalPrice = totalDist · priceKm`. -/
def updateRouteStats (problem : Problem)
    (distMatrix vehicleStartMatrix : DistanceMatrix) (vehicle : Vehicle)
    (stops : List RouteStop) : VehicleRoute :=
  let de : ℚ × ℚ := match stops with
    | [] => (0, 0)
    | first :: _ =>
        let vIdx := problem.vehicles.findIdx (fun v => v.id = vehicle.id)
        let firstO := (problem.orders.find? (fun o => o.id = first.orderId)).getD dummyOrder
        let startDist := vehicleStartMatrix vIdx (orderIndexOf problem first.orderId)
        let load := 1 / firstO.loadFactor
        updateLegs problem distMatrix stops load startDist startDist
  { stops := stops
    totalDistance := de.1
    emptyDistance := de.2
    totalPrice := de.1 * vehicle.priceKm }

/-! ## PSA coordinator (`p-sa/index.ts`) -/

/-- `saConfig?.initialTemp || 1000`: JavaScript `||` falls through on
`undefined` *and* on `0`. -/
def coordinatorBaseTemp (saConfig : Option PartialSAConfig) : ℚ :=
  match saConfig with
  | some c =>
      match c.initialTemp with
      | some t => if t = 0 then 1000 else t
      | none => 1000
  | none => 1000

/-- The `INIT` payload built by `solveTarget` (`p-sa/index.ts` lines 116–128):
`initialTemp: (saConfig?.initialTemp || 1000) * (0.9 + Math.random() * 0.2)`,
where `u ∈ [0, 1)` stands for the `Math.random()` draw. -/
def buildInitData (problem : Problem) (target : OptimizationTarget)
    (saConfig : Option PartialSAConfig) (distMatrix vehicleStartMatrix : DistanceMatrix)
    (initialSolution : ProblemSolution) (u : ℚ) : InitData :=
  { config := saConfig
    target := target
    problem := problem
    distMatrix := distMatrix
    vehicleStartMatrix := vehicleStartMatrix
    initialSolution := initialSolution
    initialTemp := coordinatorBaseTemp saConfig * (9 / 10 + u * (2 / 10)) }

/-! ## Concrete instances used by witnesses and counterexamples

The distance function is injected (`AlgorithmConfig.distanceCalc`); the
fixtures below inject the taxicab metric, which is exact on `ℚ` and agrees
with the Euclidean metric on axis-aligned inputs such as the repository's own
max-distance test. -/

/-- A pure, nonnegative, `ℚ`-exact injected distance function. -/
def taxicab : DistanceCalculator :=
  fun a b => |a.latitude - b.latitude| + |a.longitude - b.longitude|

def mkLoc (x y : ℚ) : Location := { hashStr := "", latitude := x, longitude := y }

/-- The vehicle of the repository's test `'should return empty/infinite
solutions when max distance is exceeded'`: start `(0,0)`, `priceKm = 1`. -/
def vFar : Vehicle := { id := 1, startLocation := mkLoc 0 0, priceKm := 1 }

/-- The order of that test: pickup `(1000, 0)`, delivery `(2000, 0)`,
`loadFactor = 12`. -/
def oFar : Order :=
  { id := 1, pickupLocation := mkLoc 1000 0, deliveryLocation := mkLoc 2000 0,
    loadFactor := 12 }

/-- The problem of that test: `maxTotalDistance = 50` makes every route
infeasible under `followRoute` (the very first leg is `1000 > 50`). -/
def pFar : Problem := { vehicles := [vFar], orders := [oFar], maxTotalDistance := 50 }

def cfgTaxicab : AlgorithmConfig :=
  { distanceCalc := taxicab, target := OptimizationTarget.DISTANCE, saConfig := none }

/-- An order whose normalized load `1/loadFactor = 1 + 5·10⁻⁷` lies strictly
between the strict ceiling `1` and the tolerant ceiling `1 + 10⁻⁶`. -/
def oNearCap : Order :=
  { id := 1, pickupLocation := mkLoc 0 0, deliveryLocation := mkLoc 1 0,
    loadFactor := 2000000 / 2000001 }

def pNearCap : Problem :=
  { vehicles := [vFar], orders := [oNearCap], maxTotalDistance := 1000 }

/-- Pickup-then-delivery stop pair for order id 1. -/
def stopsPD : List RouteStop :=
  [{ orderId := 1, type := StopType.pickup }, { orderId := 1, type := StopType.delivery }]

/-- Double-pickup/double-delivery sequence for order id 1. -/
def stopsPPDD : List RouteStop :=
  [{ orderId := 1, type := StopType.pickup }, { orderId := 1, type := StopType.pickup },
   { orderId := 1, type := StopType.delivery }, { orderId := 1, type := StopType.delivery }]

/-- An order with `loadFactor = 2`, so two simultaneous copies exactly fill
the capacity. -/
def oHalf : Order :=
  { id := 1, pickupLocation := mkLoc 0 0, deliveryLocation := mkLoc 1 0, loadFactor := 2 }

def pHalf : Problem := { vehicles := [vFar], orders := [oHalf], maxTotalDistance := 1000 }

/-- An all-zero distance matrix, used where a witness needs some matrix. -/
def zeroMatrix : DistanceMatrix := fun _ _ => 0

/-- An empty solution record. -/
def emptySol : ProblemSolution :=
  { routes := [], totalDistance := 0, emptyDistance := 0, totalPrice := 0 }

/-- A quiescent worker state fixture (not yet initialized, not running). -/
def stW0 : WorkerState :=
  { config := defaultWorkerConfig
    target := OptimizationTarget.DISTANCE
    problem := pHalf
    distMatrix := zeroMatrix
    vehicleStartMatrix := zeroMatrix
    currentSolution := emptySol
    currentEnergy := ((0 : ℚ) : WithTop ℚ)
    bestLocalSolution := emptySol
    bestLocalEnergy := ((0 : ℚ) : WithTop ℚ)
    temperature := 1500
    iterationCount := 0
    isRunning := false }

/-- An `INIT` payload fixture. -/
def initDataW : InitData :=
  { config := none
    target := OptimizationTarget.DISTANCE
    problem := pHalf
    distMatrix := zeroMatrix
    vehicleStartMatrix := zeroMatrix
    initialSolution := emptySol
    initialTemp := 1350 }

/-- The `Partial` SA override `{ initialTemp: 1500 }`. -/
def saConfW : PartialSAConfig := { initialTemp := some 1500 }

/-- The order ids of the pickup stops of a sequence, in order. -/
def pickupIds (stops : List RouteStop) : List ℕ :=
  (stops.filter (fun s => s.type = StopType.pickup)).map (fun s => s.orderId)

/-- The order ids of the delivery stops of a sequence, in order. -/
def deliveryIds (stops : List RouteStop) : List ℕ :=
  (stops.filter (fun s => s.type = StopType.delivery)).map (fun s => s.orderId)

/-- The two per-route aggregate invariants of the spec:
`totalPrice = totalDistance · priceKm` and `emptyDistance ≤ totalDistance`. -/
def RoutePriceEmptyOk (priceKm : ℚ) (r : VehicleRoute) : Prop :=
  r.totalPrice = r.totalDistance * priceKm ∧ r.emptyDistance ≤ r.totalDistance

/-- `RoutePriceEmptyOk` lifted to a best-so-far slot (`Infinity`/`null` is fine). -/
def BestOk (priceKm : ℚ) : Option (ℚ × VehicleRoute) → Prop
  | none => True
  | some p => RoutePriceEmptyOk priceKm p.2

/-- `BestOk` on all three slots of a `TspBests`. -/
def BestsOk (priceKm : ℚ) (st : TspBests) : Prop :=
  BestOk priceKm st.bestDist ∧ BestOk priceKm st.bestEmpty ∧ BestOk priceKm st.bestPrice

/-- The single pickup stop of `oFar`, as produced by `partitionOrders`. -/
def pStopFar : ExtendedRouteStop :=
  { orderId := 1, type := StopType.pickup, location := mkLoc 1000 0, loadFactor := 12 }

/-- The single delivery stop of `oFar`. -/
def dStopFar : ExtendedRouteStop :=
  { orderId := 1, type := StopType.delivery, location := mkLoc 2000 0, loadFactor := 12 }

/-- The route the optimized solver builds for `pFar`: pickup then delivery of
order 1, `2000` total distance (`1000` of it empty), price `2000 · 1`. -/
def farRoute : VehicleRoute :=
  { stops := [{ orderId := 1, type := StopType.pickup },
              { orderId := 1, type := StopType.delivery }],
    totalDistance := 2000, emptyDistance := 1000, totalPrice := 2000 }

/-- The corresponding single-vehicle solution of `pFar`. -/
def farSol : ProblemSolution :=
  { routes := [(1, farRoute)], totalDistance := 2000, emptyDistance := 1000,
    totalPrice := 2000 }

/-- A short feasible stop sequence for `followRoute`: pickup at the vehicle
start, delivery one unit away, `loadFactor = 2`. -/
def locsW : List ExtendedRouteStop :=
  [{ orderId := 1, type := StopType.pickup, location := mkLoc 0 0, loadFactor := 2 },
   { orderId := 1, type := StopType.delivery, location := mkLoc 1 0, loadFactor := 2 }]

/-- The route `followRoute vFar locsW 1000 taxicab` produces. -/
def rW : VehicleRoute :=
  { stops := [{ orderId := 1, type := StopType.pickup },
              { orderId := 1, type := StopType.delivery }],
    totalDistance := 1, emptyDistance := 0, totalPrice := 1 }

/-! ## Route-generation combinatorics (verification-side material for
`generateAllVehicleRoutes`)

`routeCountAux a t` satisfies the recurrence of the backtracking search from a
state with `a` orders still unpicked and `t` orders in transit; `GenInv` is the
state invariant of that search; `AdmissibleSeq` is the execution condition the
emitted routes satisfy (every delivery is of an in-transit order). -/

def routeCountAux : ℕ → ℕ → ℕ → ℕ
  | 0, _, _ => 1
  | fuel + 1, a, t =>
      if a = 0 ∧ t = 0 then 1
      else a * routeCountAux fuel (a - 1) (t + 1) + t * routeCountAux fuel a (t - 1)


def genPids : List ExtendedRouteStop → List ℕ
  | [] => []
  | x :: xs => if x.type = StopType.pickup then x.orderId :: genPids xs else genPids xs

def genDids : List ExtendedRouteStop → List ℕ
  | [] => []
  | x :: xs => if x.type = StopType.delivery then x.orderId :: genDids xs else genDids xs

def GenInv (rem : List ExtendedRouteStop) (inT : List ℕ) : Prop :=
  (genPids rem).Nodup ∧ (genDids rem).Nodup ∧ inT.Nodup
  ∧ (∀ i ∈ genPids rem, i ∉ inT)
  ∧ (∀ i ∈ genPids rem, i ∈ genDids rem)
  ∧ (∀ i ∈ inT, i ∈ genDids rem)
  ∧ (∀ i ∈ genDids rem, i ∈ genPids rem ∨ i ∈ inT)

def AdmissibleSeq : List ℕ → List ExtendedRouteStop → Prop
  | _, [] => True
  | inT, x :: xs =>
      (x.type = StopType.delivery → x.orderId ∈ inT)
      ∧ AdmissibleSeq
          (if x.type = StopType.pickup then setAdd inT x.orderId
           else setDelete inT x.orderId) xs

theorem nextSub_lt (remainingMask s : ℕ) (hs : 0 < s) : nextSub remainingMask s < s :=
  lt_of_le_of_lt Nat.and_le_left (Nat.sub_lt hs Nat.one_pos)

theorem subChain_zero_right (remainingMask fuel : ℕ) : subChain remainingMask fuel 0 = [] := by
  cases fuel <;> rfl

theorem subChain_succ_succ (remainingMask fuel s : ℕ) :
    subChain remainingMask (fuel + 1) (s + 1)
      = (s + 1) :: subChain remainingMask fuel (nextSub remainingMask (s + 1)) := rfl

theorem subChain_saturate (remainingMask : ℕ) :
    ∀ s fuel, s ≤ fuel → subChain remainingMask fuel s = subSeqFrom remainingMask s := by
  intro s
  induction s using Nat.strong_induction_on with
  | _ s ih =>
    intro fuel hfuel
    rcases Nat.eq_zero_or_pos s with rfl | hs
    · rw [subChain_zero_right, subSeqFrom, subChain_zero_right]
    · obtain ⟨s', rfl⟩ : ∃ s', s = s' + 1 := ⟨s - 1, by omega⟩
      obtain ⟨f', rfl⟩ : ∃ f', fuel = f' + 1 := ⟨fuel - 1, by omega⟩
      have hlt : nextSub remainingMask (s' + 1) < s' + 1 :=
        nextSub_lt remainingMask (s' + 1) (Nat.succ_pos s')
      rw [subChain_succ_succ, subSeqFrom, subChain_succ_succ,
        ih _ hlt _ (by omega), ih _ hlt _ (by omega)]

theorem subSeqFrom_zero (remainingMask : ℕ) : subSeqFrom remainingMask 0 = [] := by
  rw [subSeqFrom, subChain_zero_right]

theorem subSeqFrom_succ (remainingMask s : ℕ) (hs : 0 < s) :
    subSeqFrom remainingMask s = s :: subSeqFrom remainingMask (nextSub remainingMask s) := by
  obtain ⟨s', rfl⟩ : ∃ s', s = s' + 1 := ⟨s - 1, by omega⟩
  rw [subSeqFrom, subChain_succ_succ,
    subChain_saturate remainingMask _ s' (by
      have := nextSub_lt remainingMask (s' + 1) (Nat.succ_pos s')
      omega)]

theorem popCountAux_zero_right (fuel : ℕ) : popCountAux fuel 0 = 0 := by
  cases fuel <;> rfl

theorem popCountAux_succ_succ (fuel n : ℕ) :
    popCountAux (fuel + 1) (n + 1) = (n + 1) % 2 + popCountAux fuel ((n + 1) / 2) := rfl

theorem popCountAux_saturate : ∀ n fuel, n ≤ fuel → popCountAux fuel n = popCount n := by
  intro n
  induction n using Nat.strong_induction_on with
  | _ n ih =>
    intro fuel hfuel
    rcases Nat.eq_zero_or_pos n with rfl | hn
    · rw [popCountAux_zero_right, popCount, popCountAux_zero_right]
    · obtain ⟨n', rfl⟩ : ∃ n', n = n' + 1 := ⟨n - 1, by omega⟩
      obtain ⟨f', rfl⟩ : ∃ f', fuel = f' + 1 := ⟨fuel - 1, by omega⟩
      have hlt : (n' + 1) / 2 < n' + 1 := Nat.div_lt_self (Nat.succ_pos n') Nat.one_lt_two
      rw [popCountAux_succ_succ, popCount, popCountAux_succ_succ,
        ih _ hlt _ (by omega), ih _ hlt _ (by omega)]

theorem popCount_eq (n : ℕ) (hn : 0 < n) : popCount n = n % 2 + popCount (n / 2) := by
  obtain ⟨n', rfl⟩ : ∃ n', n = n' + 1 := ⟨n - 1, by omega⟩
  have hlt : (n' + 1) / 2 < n' + 1 := Nat.div_lt_self (Nat.succ_pos n') Nat.one_lt_two
  rw [popCount, popCountAux_succ_succ, popCountAux_saturate _ n' (by omega)]

theorem popCount_two_mul (r : ℕ) : popCount (2 * r) = popCount r := by
  rcases Nat.eq_zero_or_pos r with h | h
  · subst h; rfl
  · rw [popCount_eq (2 * r) (by omega)]
    simp [Nat.mul_mod_right, Nat.mul_div_cancel_left _ (two_pos)]

theorem popCount_two_mul_add_one (r : ℕ) : popCount (2 * r + 1) = popCount r + 1 := by
  rw [popCount_eq (2 * r + 1) (by omega)]
  have h1 : (2 * r + 1) % 2 = 1 := by omega
  have h2 : (2 * r + 1) / 2 = r := by omega
  rw [h1, h2, Nat.add_comm]

theorem testBit_two_mul_zero (a : ℕ) : (2 * a).testBit 0 = false := by
  simp [Nat.testBit_zero]

theorem testBit_two_mul_add_one_zero (a : ℕ) : (2 * a + 1).testBit 0 = true := by
  simp [Nat.testBit_zero]
  omega

theorem testBit_two_mul_succ (a i : ℕ) : (2 * a).testBit (i + 1) = a.testBit i := by
  rw [Nat.testBit_add_one]
  congr 1
  omega

theorem testBit_two_mul_add_one_succ (a i : ℕ) : (2 * a + 1).testBit (i + 1) = a.testBit i := by
  rw [Nat.testBit_add_one]
  congr 1
  omega

theorem land_even_odd (a b : ℕ) : (2 * a) &&& (2 * b + 1) = 2 * (a &&& b) := by
  apply Nat.eq_of_testBit_eq
  intro i
  cases i with
  | zero => simp [Nat.testBit_and, testBit_two_mul_zero]
  | succ i =>
      simp [Nat.testBit_and, testBit_two_mul_succ, testBit_two_mul_add_one_succ]

theorem land_odd_even (a b : ℕ) : (2 * a + 1) &&& (2 * b) = 2 * (a &&& b) := by
  apply Nat.eq_of_testBit_eq
  intro i
  cases i with
  | zero => simp [Nat.testBit_and, testBit_two_mul_zero]
  | succ i =>
      simp [Nat.testBit_and, testBit_two_mul_succ, testBit_two_mul_add_one_succ]

theorem land_odd_odd (a b : ℕ) : (2 * a + 1) &&& (2 * b + 1) = 2 * (a &&& b) + 1 := by
  apply Nat.eq_of_testBit_eq
  intro i
  cases i with
  | zero =>
      simp only [Nat.testBit_and, testBit_two_mul_add_one_zero, Bool.and_self]
  | succ i =>
      simp [Nat.testBit_and, testBit_two_mul_add_one_succ]

theorem land_self_right (x r : ℕ) : (x &&& r) &&& r = x &&& r := by
  rw [Nat.and_assoc, Nat.and_self]

/-- The subset chain over an even remaining mask is the doubled chain over its
half. -/
theorem subSeqFrom_even (r : ℕ) :
    ∀ s, subSeqFrom (2 * r) (2 * s) = (subSeqFrom r s).map (fun t => 2 * t) := by
  intro s
  induction s using Nat.strong_induction_on with
  | _ s ih =>
    rcases Nat.eq_zero_or_pos s with rfl | hs
    · simp [subSeqFrom_zero]
    · have hstep : nextSub (2 * r) (2 * s) = 2 * nextSub r s := by
        obtain ⟨s', rfl⟩ : ∃ s', s = s' + 1 := ⟨s - 1, by omega⟩
        show (2 * (s' + 1) - 1) &&& (2 * r) = _
        have h1 : 2 * (s' + 1) - 1 = 2 * s' + 1 := by omega
        rw [h1, land_odd_even]
        rfl
      rw [subSeqFrom_succ _ (2 * s) (by omega), subSeqFrom_succ _ s hs, hstep,
        ih (nextSub r s) (nextSub_lt r s hs)]
      rfl

/-- The subset chain over an odd remaining mask `2r+1`, started at an odd
submask `2s+1` with `s ⊆ r`, interleaves the doubled chain over `r` with its
odd companions and ends with `1`. -/
theorem subSeqFrom_odd (r : ℕ) :
    ∀ s, s &&& r = s →
      subSeqFrom (2 * r + 1) (2 * s + 1)
        = (subSeqFrom r s).flatMap (fun t => [2 * t + 1, 2 * t]) ++ [1] := by
  intro s
  induction s using Nat.strong_induction_on with
  | _ s ih =>
    intro hsub
    rcases Nat.eq_zero_or_pos s with rfl | hs
    · rw [subSeqFrom_succ _ 1 (by omega)]
      have h0 : nextSub (2 * r + 1) 1 = 0 := by
        show (1 - 1) &&& (2 * r + 1) = 0
        simp
      rw [h0, subSeqFrom_zero, subSeqFrom_zero]
      rfl
    · have hstep1 : nextSub (2 * r + 1) (2 * s + 1) = 2 * s := by
        show (2 * s + 1 - 1) &&& (2 * r + 1) = 2 * s
        have h1 : 2 * s + 1 - 1 = 2 * s := by omega
        rw [h1, land_even_odd, hsub]
      have hstep2 : nextSub (2 * r + 1) (2 * s) = 2 * nextSub r s + 1 := by
        show (2 * s - 1) &&& (2 * r + 1) = _
        obtain ⟨s', rfl⟩ : ∃ s', s = s' + 1 := ⟨s - 1, by omega⟩
        have h1 : 2 * (s' + 1) - 1 = 2 * s' + 1 := by omega
        rw [h1, land_odd_odd]
        rfl
      have hsub' : nextSub r s &&& r = nextSub r s := land_self_right _ _
      rw [subSeqFrom_succ _ (2 * s + 1) (by omega), hstep1,
        subSeqFrom_succ _ (2 * s) (by omega), hstep2,
        ih (nextSub r s) (nextSub_lt r s hs) hsub',
        subSeqFrom_succ _ s hs]
      rfl

theorem flatMap_pairs_length (l : List ℕ) :
    (l.flatMap (fun t => [2 * t + 1, 2 * t])).length = 2 * l.length := by
  induction l with
  | nil => rfl
  | cons x xs ih => simp [List.flatMap_cons, ih]; omega

/-- The subset chain of a mask `rem`, started at `rem`, has `2^(popCount rem) - 1`
elements. -/
theorem subSeqFrom_self_length :
    ∀ rem, (subSeqFrom rem rem).length = 2 ^ popCount rem - 1 := by
  intro rem
  induction rem using Nat.strong_induction_on with
  | _ rem ih =>
    rcases Nat.eq_zero_or_pos rem with rfl | hrem
    · rw [subSeqFrom_zero]
      rfl
    · rcases Nat.mod_two_eq_zero_or_one rem with h2 | h2
      · obtain ⟨r, rfl⟩ : ∃ r, rem = 2 * r := ⟨rem / 2, by omega⟩
        rw [subSeqFrom_even r r, popCount_two_mul]
        rw [List.length_map]
        exact ih r (by omega)
      · obtain ⟨r, rfl⟩ : ∃ r, rem = 2 * r + 1 := ⟨rem / 2, by omega⟩
        have hlen : (subSeqFrom (2 * r + 1) (2 * r + 1)).length
            = 2 * (subSeqFrom r r).length + 1 := by
          rw [subSeqFrom_odd r r (Nat.and_self r), List.length_append, flatMap_pairs_length]
          rfl
        rw [hlen, popCount_two_mul_add_one, ih r (by omega), pow_succ]
        have hpow : 1 ≤ 2 ^ popCount r := Nat.one_le_two_pow
        omega

/-- Every element of the subset chain started at `s ⊆ rem` is positive, at
most `s`, and a submask of `rem`. -/
theorem subSeqFrom_mem (rem : ℕ) :
    ∀ s, s &&& rem = s → ∀ x ∈ subSeqFrom rem s, 0 < x ∧ x ≤ s ∧ x &&& rem = x := by
  intro s
  induction s using Nat.strong_induction_on with
  | _ s ih =>
    intro hsub x hx
    rcases Nat.eq_zero_or_pos s with rfl | hs
    · rw [subSeqFrom_zero] at hx
      cases hx
    · rw [subSeqFrom_succ _ s hs] at hx
      rcases List.mem_cons.mp hx with rfl | hx'
      · exact ⟨hs, le_refl _, hsub⟩
      · have h' := ih (nextSub rem s) (nextSub_lt rem s hs) (land_self_right _ _) x hx'
        exact ⟨h'.1, le_trans h'.2.1 (le_of_lt (nextSub_lt rem s hs)), h'.2.2⟩

/-- The subset chain is strictly descending. -/
theorem subSeqFrom_pairwise (rem : ℕ) :
    ∀ s, (subSeqFrom rem s).Pairwise (· > ·) := by
  intro s
  induction s using Nat.strong_induction_on with
  | _ s ih =>
    rcases Nat.eq_zero_or_pos s with rfl | hs
    · rw [subSeqFrom_zero]
      exact List.Pairwise.nil
    · rw [subSeqFrom_succ _ s hs]
      refine List.Pairwise.cons ?_ (ih (nextSub rem s) (nextSub_lt rem s hs))
      intro x hx
      have h' := subSeqFrom_mem rem (nextSub rem s) (land_self_right _ _) x hx
      exact lt_of_le_of_lt h'.2.1 (nextSub_lt rem s hs)

theorem subset_of_subset_xor (a f x : ℕ) (ha : a &&& f = a) (hx : x &&& (f ^^^ a) = x) :
    x &&& f = x := by
  apply Nat.eq_of_testBit_eq
  intro i
  have hxi := congrArg (fun n => n.testBit i) hx
  have hai := congrArg (fun n => n.testBit i) ha
  simp only [Nat.testBit_and, Nat.testBit_xor] at hxi hai ⊢
  cases hxb : x.testBit i with
  | false => simp
  | true =>
      rw [hxb] at hxi
      simp only [Bool.true_and] at hxi
      cases hfb : f.testBit i with
      | true => simp
      | false =>
          rw [hfb] at hxi hai
          cases hab : a.testBit i with
          | false => rw [hab] at hxi; simp at hxi
          | true => rw [hab] at hai; simp at hai

theorem disjoint_of_subset_xor (a f x : ℕ) (ha : a &&& f = a) (hx : x &&& (f ^^^ a) = x) :
    x &&& a = 0 := by
  apply Nat.eq_of_testBit_eq
  intro i
  have hxi := congrArg (fun n => n.testBit i) hx
  have hai := congrArg (fun n => n.testBit i) ha
  simp only [Nat.testBit_and, Nat.testBit_xor, Nat.zero_testBit] at hxi hai ⊢
  cases hxb : x.testBit i with
  | false => simp
  | true =>
      rw [hxb] at hxi
      simp only [Bool.true_and] at hxi
      cases hab : a.testBit i with
      | false => simp
      | true =>
          rw [hab] at hai hxi
          cases hfb : f.testBit i with
          | false => rw [hfb] at hai; simp at hai
          | true => rw [hfb] at hxi; simp at hxi

/-! ## Claim theorems -/

/-- **C2.** The exact solver's `solve` fails with `ProblemTooLarge` exactly
when `|vehicles| > 7` or `|orders| > 7`; on every smaller input it raises no
error and returns a result.  Both the JS implementation (`solveSync`) and the
Rust wrapper's guard behave identically. -/
theorem C2_size_guard (p : Problem) (config : AlgorithmConfig) :
    (solveSync p config = .error .problemTooLarge
        ↔ (7 < p.vehicles.length ∨ 7 < p.orders.length))
    ∧ ((¬ (7 < p.vehicles.length ∨ 7 < p.orders.length)) →
        ∃ r, solveSync p config = .ok r)
    ∧ (solveRustGuard p = .error .problemTooLarge
        ↔ (7 < p.vehicles.length ∨ 7 < p.orders.length)) := by
  unfold solveSync solveRustGuard MAX_PROBLEM_SIZE
  by_cases h : p.orders.length > 7 ∨ p.vehicles.length > 7
  · simp only [if_pos h]
    exact ⟨by simp; tauto, fun hn => absurd h (by tauto), by simp; tauto⟩
  · simp only [if_neg h]
    exact ⟨by simp; omega, fun _ => ⟨_, rfl⟩, by simp; omega⟩

/-- **C2 witness**: the 1×1 instance `pHalf` is accepted and solved. -/
theorem C2_size_guard_witness :
    (¬ (7 < pHalf.vehicles.length ∨ 7 < pHalf.orders.length))
    ∧ (∃ r, solveSync pHalf cfgTaxicab = .ok r) :=
  ⟨by decide, (C2_size_guard pHalf cfgTaxicab).2.1 (by decide)⟩

/-- **C3.** For `assignmentMask ⊆ fullMask` whose difference has `k` set bits,
`iterateAllSubsets` invokes its callback exactly `2^k − 1` times, on strictly
descending (hence pairwise distinct) nonzero submasks of
`fullMask ∖ assignmentMask` (`= fullMask ^^^ assignmentMask` under the subset
hypothesis), each disjoint from `assignmentMask`, and never on `0`. -/
theorem C3_iterateAllSubsets_spec (assignmentMask fullMask : ℕ)
    (h : assignmentMask &&& fullMask = assignmentMask) :
    (iterateAllSubsets assignmentMask fullMask).length
        = 2 ^ popCount (fullMask ^^^ assignmentMask) - 1
    ∧ (iterateAllSubsets assignmentMask fullMask).Pairwise (· > ·)
    ∧ ∀ x ∈ iterateAllSubsets assignmentMask fullMask,
        x ≠ 0 ∧ x &&& (fullMask ^^^ assignmentMask) = x
          ∧ x &&& fullMask = x ∧ x &&& assignmentMask = 0 := by
  refine ⟨subSeqFrom_self_length _, subSeqFrom_pairwise _ _, ?_⟩
  intro x hx
  have hm := subSeqFrom_mem (fullMask ^^^ assignmentMask) (fullMask ^^^ assignmentMask)
    (Nat.and_self _) x hx
  exact ⟨Nat.pos_iff_ne_zero.mp hm.1, hm.2.2,
    subset_of_subset_xor assignmentMask fullMask x h hm.2.2,
    disjoint_of_subset_xor assignmentMask fullMask x h hm.2.2⟩

/-- **C3 witness**: the repository's own example `fullMask = 0b1111`,
`assignmentMask = 0b0101` (expected `{0b1010, 0b1000, 0b0010}`). -/
theorem C3_iterateAllSubsets_spec_witness :
    (5 &&& 15 = 5)
    ∧ ((iterateAllSubsets 5 15).length = 2 ^ popCount (15 ^^^ 5) - 1
        ∧ (iterateAllSubsets 5 15).Pairwise (· > ·)
        ∧ ∀ x ∈ iterateAllSubsets 5 15,
            x ≠ 0 ∧ x &&& (15 ^^^ 5) = x ∧ x &&& 15 = x ∧ x &&& 5 = 0) :=
  ⟨by decide, C3_iterateAllSubsets_spec 5 15 (by decide)⟩

theorem mergeConfig_idem (base : SimulatedAnnealingConfig) (p : Option PartialSAConfig) :
    mergeConfig (mergeConfig base p) p = mergeConfig base p := by
  cases p with
  | none => rfl
  | some c =>
      simp only [mergeConfig]
      cases c.initialTemp <;> cases c.coolingRate <;> cases c.minTemp
        <;> cases c.maxIterations <;> cases c.batchSize <;> cases c.syncInterval
        <;> cases c.weights <;> rfl

/-- **C5 counterexample.** With `saConfig = { initialTemp: 1500 }` and random
draw `u = 0`, the coordinator's `INIT` payload carries the jittered value
`1500 × 0.9 = 1350`, but the worker starts its annealing with
`temperature = 1500`: the jitter sent by the coordinator is *not* the
temperature the worker starts with. -/
theorem C5_counterexample :
    (buildInitData pHalf .DISTANCE (some saConfW) zeroMatrix zeroMatrix
        emptySol 0).initialTemp = 1350
    ∧ (initWorker (buildInitData pHalf .DISTANCE (some saConfW) zeroMatrix zeroMatrix
        emptySol 0) stW0).temperature = 1500
    ∧ (1500 : ℚ) ≠ 1350 := by
  refine ⟨?_, ?_, by norm_num⟩
  · show coordinatorBaseTemp (some saConfW) * (9 / 10 + 0 * (2 / 10)) = 1350
    norm_num [coordinatorBaseTemp, saConfW]
  · show (mergeConfig stW0.config (some saConfW)).initialTemp = 1500
    norm_num [mergeConfig, saConfW, stW0, defaultWorkerConfig]

/-- **C5 (amended).** The coordinator sends, in the `INIT` payload field
`initialTemp`, the value `(saConfig.initialTemp || 1000) × (0.9 + 0.2·u)` with
`u ∈ [0,1)` — a jitter factor in `[0.9, 1.1)`, not `[0.9, 1.2)` — but the
worker never reads that field: it starts with `temperature =` the merged
config's `initialTemp` (the override when given, else the default `1500`). -/
theorem C5_amended (saConfig : Option PartialSAConfig) (u : ℚ) (problem : Problem)
    (target : OptimizationTarget) (dm sm : DistanceMatrix) (sol : ProblemSolution)
    (st : WorkerState) (hu0 : 0 ≤ u) (hu1 : u < 1) (hc : st.config = defaultWorkerConfig) :
    (buildInitData problem target saConfig dm sm sol u).initialTemp
        = coordinatorBaseTemp saConfig * (9 / 10 + u * (2 / 10))
    ∧ (9 : ℚ) / 10 ≤ 9 / 10 + u * (2 / 10)
    ∧ 9 / 10 + u * (2 / 10) < 11 / 10
    ∧ (initWorker (buildInitData problem target saConfig dm sm sol u) st).temperature
        = (mergeConfig defaultWorkerConfig saConfig).initialTemp := by
  refine ⟨rfl, by nlinarith, by nlinarith, ?_⟩
  show (mergeConfig st.config saConfig).initialTemp = _
  rw [hc]

/-- **C5 witness** at `saConfig = { initialTemp: 1500 }`, `u = 1/2`. -/
theorem C5_amended_witness :
    ((0 : ℚ) ≤ 1 / 2 ∧ (1 : ℚ) / 2 < 1 ∧ stW0.config = defaultWorkerConfig)
    ∧ ((buildInitData pHalf .DISTANCE (some saConfW) zeroMatrix zeroMatrix emptySol
          (1 / 2)).initialTemp
        = coordinatorBaseTemp (some saConfW) * (9 / 10 + (1 / 2) * (2 / 10))
      ∧ (9 : ℚ) / 10 ≤ 9 / 10 + (1 / 2) * (2 / 10)
      ∧ (9 : ℚ) / 10 + (1 / 2) * (2 / 10) < 11 / 10
      ∧ (initWorker (buildInitData pHalf .DISTANCE (some saConfW) zeroMatrix zeroMatrix
            emptySol (1 / 2)) stW0).temperature
          = (mergeConfig defaultWorkerConfig (some saConfW)).initialTemp) :=
  ⟨⟨by norm_num, by norm_num, rfl⟩,
    C5_amended (some saConfW) (1 / 2) pHalf .DISTANCE zeroMatrix zeroMatrix emptySol stW0
      (by norm_num) (by norm_num) rfl⟩

/-- **C9.** The worker registers the same `'message'` listener twice, so every
delivered message is handled twice: one `INIT` runs `initialize` twice and
`startAnnealing` twice — `runBatch` is invoked on the first call and the
second is a no-op because `isRunning` is already `true` — and one
`INFLUENCE_UPDATE` runs `handleInfluence` twice in succession. -/
theorem C9_double_dispatch (gen : ProblemSolution → ProblemSolution) (st : WorkerState)
    (d : InitData) (sol : ProblemSolution) (e : Energy) (hrun : st.isRunning = false) :
    (dispatchMessage gen (.init d) st).1
        = { initWorker d (initWorker d st) with isRunning := true }
    ∧ (dispatchMessage gen (.init d) st).2 = [true, false]
    ∧ (dispatchMessage gen (.influenceUpdate sol e) st).1
        = handleInfluence gen (handleInfluence gen st sol e) sol e
    ∧ (dispatchMessage gen (.influenceUpdate sol e) st).2 = [] := by
  have h1 : (initWorker d st).isRunning = false := hrun
  have e1 : startAnnealing (initWorker d st)
      = ({ initWorker d st with isRunning := true }, true) := by
    rw [startAnnealing, if_neg (by simp [h1])]
  have e3 : initWorker d { initWorker d st with isRunning := true }
      = { initWorker d (initWorker d st) with isRunning := true } := by
    simp only [initWorker, mergeConfig_idem]
  have e2 : startAnnealing { initWorker d (initWorker d st) with isRunning := true }
      = ({ initWorker d (initWorker d st) with isRunning := true }, false) := by
    rw [startAnnealing, if_pos rfl]
  have key : dispatchMessage gen (.init d) st
      = ({ initWorker d (initWorker d st) with isRunning := true }, [true, false]) := by
    simp only [dispatchMessage, mainHandler, e1, e3, e2, List.cons_append, List.nil_append]
  exact ⟨by rw [key], by rw [key], rfl, rfl⟩

/-- **C9 witness** at a quiescent worker state. -/
theorem C9_double_dispatch_witness :
    (stW0.isRunning = false)
    ∧ ((dispatchMessage cloneSolution (.init initDataW) stW0).1
          = { initWorker initDataW (initWorker initDataW stW0) with isRunning := true }
      ∧ (dispatchMessage cloneSolution (.init initDataW) stW0).2 = [true, false]
      ∧ (dispatchMessage cloneSolution
            (.influenceUpdate emptySol ((0 : ℚ) : WithTop ℚ)) stW0).1
          = handleInfluence cloneSolution
              (handleInfluence cloneSolution stW0 emptySol ((0 : ℚ) : WithTop ℚ))
              emptySol ((0 : ℚ) : WithTop ℚ)
      ∧ (dispatchMessage cloneSolution
            (.influenceUpdate emptySol ((0 : ℚ) : WithTop ℚ)) stW0).2 = []) :=
  ⟨rfl, C9_double_dispatch cloneSolution stW0 initDataW emptySol ((0 : ℚ) : WithTop ℚ) rfl⟩

/-- **C7.** `handleInfluence` with `(solution, energy)`: when
`energy ≥ currentEnergy` the whole worker state is unchanged.  When
`energy < currentEnergy` the worker adopts the solution, perturbs it by
exactly one mutation when that perturbation is feasible (keeping the
unperturbed adoption otherwise), updates the personal best exactly when the
resulting energy improves it, reheats with `temperature ← max(temperature,
50)`, and leaves `iterationCount`, `isRunning`, `config`, `problem` and
`target` untouched. -/
theorem C7_handleInfluence (gen : ProblemSolution → ProblemSolution)
    (st : WorkerState) (sol : ProblemSolution) (e : Energy) :
    (¬ e < st.currentEnergy → handleInfluence gen st sol e = st)
    ∧ (e < st.currentEnergy →
        (handleInfluence gen st sol e).temperature = max st.temperature 50
        ∧ (handleInfluence gen st sol e).iterationCount = st.iterationCount
        ∧ (handleInfluence gen st sol e).isRunning = st.isRunning
        ∧ (handleInfluence gen st sol e).config = st.config
        ∧ (handleInfluence gen st sol e).problem = st.problem
        ∧ (handleInfluence gen st sol e).target = st.target
        ∧ (isValidSolution st.problem (gen sol) = true →
            (handleInfluence gen st sol e).currentSolution = gen sol
            ∧ (handleInfluence gen st sol e).currentEnergy
                = calculateEnergy st.problem st.target (gen sol))
        ∧ (isValidSolution st.problem (gen sol) = false →
            (handleInfluence gen st sol e).currentSolution = sol
            ∧ (handleInfluence gen st sol e).currentEnergy = e)
        ∧ ((handleInfluence gen st sol e).currentEnergy < st.bestLocalEnergy →
            (handleInfluence gen st sol e).bestLocalSolution
                = (handleInfluence gen st sol e).currentSolution
            ∧ (handleInfluence gen st sol e).bestLocalEnergy
                = (handleInfluence gen st sol e).currentEnergy)
        ∧ (¬ (handleInfluence gen st sol e).currentEnergy < st.bestLocalEnergy →
            (handleInfluence gen st sol e).bestLocalSolution = st.bestLocalSolution
            ∧ (handleInfluence gen st sol e).bestLocalEnergy = st.bestLocalEnergy)) := by
  constructor
  · intro h
    simp only [handleInfluence, if_neg h]
  · intro h
    by_cases hv : isValidSolution st.problem (gen sol) = true
    · by_cases hb : calculateEnergy st.problem st.target (gen sol) < st.bestLocalEnergy
      · simp [handleInfluence, if_pos h, cloneSolution, hv, hb]
      · simp [handleInfluence, if_pos h, cloneSolution, hv, hb]
    · by_cases hb : e < st.bestLocalEnergy
      · simp [handleInfluence, if_pos h, cloneSolution, hv, hb]
      · simp [handleInfluence, if_pos h, cloneSolution, hv, hb]

/-- **C4 counterexample.** The order `oNearCap` has normalized load
`1/loadFactor = 1 + 5·10⁻⁷`, which does not exceed `1 + 1e-6`: the claim says
every feasibility check accepts it.  RCRS's `isValidRoute` indeed accepts the
pickup–delivery route, but the PSA worker's `checkRouteConstraints` rejects it
(its ceiling is the strict `1.0`), and the exact solver's TSP pickup step also
rejects it (`getBestRoute` finds no feasible route at all). -/
theorem C4_counterexample :
    isValidRoute stopsPD pNearCap = true
    ∧ checkRouteConstraints pNearCap
        { stops := stopsPD, totalDistance := 0, emptyDistance := 0, totalPrice := 0 }
        vFar = false
    ∧ getBestRoute zeroMatrix zeroMatrix 0 1 [vFar] [oNearCap] = none := by
  refine ⟨?_, ?_, ?_⟩
  · norm_num [isValidRoute, isValidRouteLoop, setAdd, pNearCap, oNearCap, stopsPD, vFar,
      mkLoc, List.find?]
    decide
  · norm_num [checkRouteConstraints, checkRouteLoop, setAdd, pNearCap, oNearCap, stopsPD,
      vFar, mkLoc, NumberEpsilon, List.find?]
  · norm_num [getBestRoute, solveTSP, tspCollect, tspGo, ltBest, zeroMatrix, oNearCap, vFar,
      mkLoc, dummyOrder, List.range, List.filter, List.range.loop]

/-- **C4 (amended).** The load-feasibility ceilings differ between the three
checkers: on the pickup–delivery route of a single order with normalized load
`L = 1/loadFactor`, the PSA worker's `checkRouteConstraints` accepts exactly
when `L ≤ 1` (strict ceiling, no tolerance), the exact solver's TSP pickup
step finds a feasible route exactly when `L ≤ 1` (same strict ceiling), and
only RCRS's `isValidRoute` uses the tolerance `ε = 1e-6`, accepting exactly
when `L ≤ 1 + 1e-6`. -/
theorem C4_amended (vs : List Vehicle) (mtd : ℚ) (o : Order) (v : Vehicle)
    (dm sm : DistanceMatrix) :
    (checkRouteConstraints { vehicles := vs, orders := [o], maxTotalDistance := mtd }
        { stops := [{ orderId := o.id, type := StopType.pickup },
                    { orderId := o.id, type := StopType.delivery }],
          totalDistance := 0, emptyDistance := 0, totalPrice := 0 } v = true
      ↔ 1 / o.loadFactor ≤ 1)
    ∧ (isValidRoute [{ orderId := o.id, type := StopType.pickup },
          { orderId := o.id, type := StopType.delivery }]
          { vehicles := vs, orders := [o], maxTotalDistance := mtd } = true
      ↔ 1 / o.loadFactor ≤ 1 + 1 / 1000000)
    ∧ ((solveTSP dm sm 0 [0] v [o]).isSome ↔ 1 / o.loadFactor ≤ 1) := by
  have hfind : List.find? (fun o' => o'.id = o.id) [o] = some o := by simp
  refine ⟨?_, ?_, ?_⟩
  · simp only [checkRouteConstraints, checkRouteLoop, hfind, setAdd, NumberEpsilon]
    simp [List.mem_singleton]
    rcases le_or_lt o.loadFactor⁻¹ 1 with hL | hL
    · rw [if_neg (not_lt.mpr hL)]
      norm_num [hL]
    · rw [if_pos hL]
      simp [not_le.mpr hL]
  · simp only [isValidRoute, isValidRouteLoop, hfind, setAdd]
    simp [List.mem_singleton]
    rcases le_or_lt o.loadFactor⁻¹ (1 + 1000000⁻¹) with hL | hL
    · rw [if_neg (not_lt.mpr hL)]
      norm_num
      linarith
    · rw [if_pos hL]
      simp [not_le.mpr hL]
  · simp only [solveTSP, tspCollect, tspGo, ltBest]
    simp
    rcases le_or_lt o.loadFactor⁻¹ 1 with hL | hL
    · rw [if_neg (not_lt.mpr hL)]
      simp [tspCollect, hL]
    · rw [if_pos hL]
      simp [tspCollect, not_le.mpr hL]

theorem mem_setAdd (s : List ℕ) (x y : ℕ) : x ∈ setAdd s y ↔ x ∈ s ∨ x = y := by
  unfold setAdd
  split_ifs with h
  · constructor
    · exact fun hx => Or.inl hx
    · rintro (hx | rfl)
      · exact hx
      · exact h
  · simp

theorem mem_pickupIds (x : ℕ) (stops : List RouteStop) :
    x ∈ pickupIds stops ↔ ∃ s ∈ stops, s.type = StopType.pickup ∧ s.orderId = x := by
  simp only [pickupIds, List.mem_map, List.mem_filter, decide_eq_true_eq]
  constructor
  · rintro ⟨s, ⟨hs, ht⟩, rfl⟩
    exact ⟨s, hs, ht, rfl⟩
  · rintro ⟨s, hs, ht, rfl⟩
    exact ⟨s, ⟨hs, ht⟩, rfl⟩

theorem mem_deliveryIds (x : ℕ) (stops : List RouteStop) :
    x ∈ deliveryIds stops ↔ ∃ s ∈ stops, s.type = StopType.delivery ∧ s.orderId = x := by
  simp only [deliveryIds, List.mem_map, List.mem_filter, decide_eq_true_eq]
  constructor
  · rintro ⟨s, ⟨hs, ht⟩, rfl⟩
    exact ⟨s, hs, ht, rfl⟩
  · rintro ⟨s, hs, ht, rfl⟩
    exact ⟨s, ⟨hs, ht⟩, rfl⟩

/-- If the pending stops contain a duplicated pickup (or one colliding with the
already-picked set), or a duplicated delivery (or one colliding with the
already-delivered set), the `isValidRoute` scan fails. -/
theorem isValidRouteLoop_dup (problem : Problem) :
    ∀ (stops : List RouteStop) (pickedUp delivered : List ℕ) (load : ℚ),
      ((¬ (pickupIds stops).Nodup
          ∨ ∃ s ∈ stops, s.type = StopType.pickup ∧ s.orderId ∈ pickedUp)
        ∨ (¬ (deliveryIds stops).Nodup
          ∨ ∃ s ∈ stops, s.type = StopType.delivery ∧ s.orderId ∈ delivered)) →
      isValidRouteLoop problem stops pickedUp delivered load = none := by
  intro stops
  induction stops with
  | nil =>
      intro pickedUp delivered load h
      exfalso
      rcases h with (h | h) | (h | h)
      · exact h (by simp [pickupIds])
      · obtain ⟨s, hs, -⟩ := h; exact absurd hs (List.not_mem_nil s)
      · exact h (by simp [deliveryIds])
      · obtain ⟨s, hs, -⟩ := h; exact absurd hs (List.not_mem_nil s)
  | cons stop rest ih =>
      intro pickedUp delivered load h
      cases hf : problem.orders.find? (fun o => o.id = stop.orderId) with
      | none => rw [isValidRouteLoop, hf]
      | some order =>
          have hid : order.id = stop.orderId := by
            have := List.find?_some hf
            simpa using this
          rw [isValidRouteLoop, hf]
          dsimp only
          cases hty : stop.type with
          | pickup =>
              rw [if_pos rfl]
              by_cases hmem : order.id ∈ pickedUp
              · rw [if_pos hmem]
              · rw [if_neg hmem]
                split_ifs with hcap
                · rfl
                · apply ih
                  have hpids : pickupIds (stop :: rest) = stop.orderId :: pickupIds rest := by
                    simp [pickupIds, hty]
                  have hdids : deliveryIds (stop :: rest) = deliveryIds rest := by
                    simp [deliveryIds, hty]
                  rcases h with (h | h) | (h | h)
                  · rw [hpids, List.nodup_cons] at h
                    push_neg at h
                    by_cases hin : stop.orderId ∈ pickupIds rest
                    · obtain ⟨s, hs, hstype, hsid⟩ := (mem_pickupIds _ _).mp hin
                      exact Or.inl (Or.inr ⟨s, hs, hstype, by
                        rw [hsid, ← hid, mem_setAdd]; exact Or.inr rfl⟩)
                    · exact Or.inl (Or.inl (fun hn => (h hin hn).elim))
                  · obtain ⟨s, hs, hstype, hsid⟩ := h
                    rcases List.mem_cons.mp hs with rfl | hs2
                    · exact absurd (hid ▸ hsid) hmem
                    · exact Or.inl (Or.inr ⟨s, hs2, hstype,
                        (mem_setAdd _ _ _).mpr (Or.inl hsid)⟩)
                  · rw [hdids] at h
                    exact Or.inr (Or.inl h)
                  · obtain ⟨s, hs, hstype, hsid⟩ := h
                    rcases List.mem_cons.mp hs with rfl | hs2
                    · rw [hty] at hstype; cases hstype
                    · exact Or.inr (Or.inr ⟨s, hs2, hstype, hsid⟩)
          | delivery =>
              rw [if_neg (fun hcon => StopType.noConfusion hcon)]
              by_cases hpick : order.id ∈ pickedUp
              · rw [if_neg (not_not_intro hpick)]
                by_cases hdel : order.id ∈ delivered
                · rw [if_pos hdel]
                · rw [if_neg hdel]
                  split_ifs with hcap
                  · rfl
                  · apply ih
                    have hpids : pickupIds (stop :: rest) = pickupIds rest := by
                      simp [pickupIds, hty]
                    have hdids : deliveryIds (stop :: rest)
                        = stop.orderId :: deliveryIds rest := by
                      simp [deliveryIds, hty]
                    rcases h with (h | h) | (h | h)
                    · rw [hpids] at h
                      exact Or.inl (Or.inl h)
                    · obtain ⟨s, hs, hstype, hsid⟩ := h
                      rcases List.mem_cons.mp hs with rfl | hs2
                      · rw [hty] at hstype; cases hstype
                      · exact Or.inl (Or.inr ⟨s, hs2, hstype, hsid⟩)
                    · rw [hdids, List.nodup_cons] at h
                      push_neg at h
                      by_cases hin : stop.orderId ∈ deliveryIds rest
                      · obtain ⟨s, hs, hstype, hsid⟩ := (mem_deliveryIds _ _).mp hin
                        exact Or.inr (Or.inr ⟨s, hs, hstype, by
                          rw [hsid, ← hid, mem_setAdd]; exact Or.inr rfl⟩)
                      · exact Or.inr (Or.inl (fun hn => (h hin hn).elim))
                    · obtain ⟨s, hs, hstype, hsid⟩ := h
                      rcases List.mem_cons.mp hs with rfl | hs2
                      · exact absurd (hid ▸ hsid) hdel
                      · exact Or.inr (Or.inr ⟨s, hs2, hstype,
                          (mem_setAdd _ _ _).mpr (Or.inl hsid)⟩)
              · rw [if_pos hpick]

/-- **C10.** The PSA worker's `checkRouteConstraints` accepts the stop
sequence `pickup(1), pickup(1), delivery(1), delivery(1)` (load factor 2, so
the doubled load is exactly 1): it only requires each delivery to follow some
pickup of the same order, prefix loads within the ceiling, and a zero final
load.  RCRS's `isValidRoute` rejects that sequence, and in general rejects
every sequence with a repeated pickup or a repeated delivery of the same
order. -/
theorem C10_duplicate_stop_divergence :
    checkRouteConstraints pHalf
        { stops := stopsPPDD, totalDistance := 0, emptyDistance := 0, totalPrice := 0 }
        vFar = true
    ∧ 2 / oHalf.loadFactor ≤ 1
    ∧ isValidRoute stopsPPDD pHalf = false
    ∧ (∀ (problem : Problem) (stops : List RouteStop),
        (¬ (pickupIds stops).Nodup ∨ ¬ (deliveryIds stops).Nodup) →
          isValidRoute stops problem = false) := by
  refine ⟨?_, by norm_num [oHalf], ?_, ?_⟩
  · norm_num [checkRouteConstraints, checkRouteLoop, setAdd, pHalf, oHalf, stopsPPDD,
      vFar, mkLoc, NumberEpsilon, List.find?]
    simp
  · norm_num [isValidRoute, isValidRouteLoop, setAdd, pHalf, oHalf, stopsPPDD,
      vFar, mkLoc, List.find?]
  · intro problem stops h
    rw [isValidRoute, isValidRouteLoop_dup problem stops [] [] 0 ?_]
    rcases h with h | h
    · exact Or.inl (Or.inl h)
    · exact Or.inr (Or.inl h)

/-- **C10 witness**: the double-pickup sequence instantiates the universal
rejection clause. -/
theorem C10_duplicate_stop_divergence_witness :
    (¬ (pickupIds stopsPPDD).Nodup ∨ ¬ (deliveryIds stopsPPDD).Nodup)
    ∧ isValidRoute stopsPPDD pHalf = false :=
  ⟨Or.inl (by decide),
    C10_duplicate_stop_divergence.2.2.2 pHalf stopsPPDD (Or.inl (by decide))⟩

theorem emptyLeg_le (e d leg : ℚ) (c : Prop) [Decidable c] (hed : e ≤ d) (hleg : 0 ≤ leg) :
    (if c then e + leg else e) ≤ d + leg := by
  split_ifs <;> linarith

theorem emptyLeg_le2 (e d leg : ℚ) (c : Prop) [Decidable c] (hed : e ≤ d) (hleg : 0 ≤ leg) :
    e + (if c then leg else 0) ≤ d + leg := by
  split_ifs <;> linarith

theorem foldl_preserve {α β : Type} (P : β → Prop) (f : β → α → β) :
    ∀ (l : List α) (b : β), P b → (∀ b a, P b → P (f b a)) → P (l.foldl f b) := by
  intro l
  induction l with
  | nil => intro b hb _; exact hb
  | cons x xs ih => intro b hb hf; exact ih (f b x) (hf b x hb) hf

theorem buildDistanceMatrix_nonneg (orders : List Order) (distanceCalc : DistanceCalculator)
    (h : ∀ a b, 0 ≤ distanceCalc a b) :
    ∀ i j, 0 ≤ buildDistanceMatrix orders distanceCalc i j := by
  intro i j
  unfold buildDistanceMatrix
  split_ifs
  · exact le_refl 0
  · exact h _ _

theorem buildVehicleDistances_nonneg (vehicles : List Vehicle) (orders : List Order)
    (distanceCalc : DistanceCalculator) (h : ∀ a b, 0 ≤ distanceCalc a b) :
    ∀ i j, 0 ≤ buildVehicleDistances vehicles orders distanceCalc i j := by
  intro i j
  exact h _ _

theorem recalcLegs_le (problem : Problem) (dm : DistanceMatrix)
    (hdm : ∀ i j, 0 ≤ dm i j) :
    ∀ (stops : List RouteStop) (load d e : ℚ), e ≤ d →
      (recalcLegs problem dm stops load d e).2 ≤ (recalcLegs problem dm stops load d e).1 := by
  intro stops
  induction stops with
  | nil => intro load d e hed; exact hed
  | cons s1 rest ih =>
      intro load d e hed
      cases rest with
      | nil => exact hed
      | cons s2 rest2 =>
          rw [recalcLegs]
          apply ih
          exact emptyLeg_le _ _ _ _ hed (hdm _ _)

theorem updateLegs_le (problem : Problem) (dm : DistanceMatrix)
    (hdm : ∀ i j, 0 ≤ dm i j) :
    ∀ (stops : List RouteStop) (load d e : ℚ), e ≤ d →
      (updateLegs problem dm stops load d e).2 ≤ (updateLegs problem dm stops load d e).1 := by
  intro stops
  induction stops with
  | nil => intro load d e hed; exact hed
  | cons s1 rest ih =>
      intro load d e hed
      cases rest with
      | nil => exact hed
      | cons s2 rest2 =>
          rw [updateLegs]
          apply ih
          exact emptyLeg_le _ _ _ _ hed (hdm _ _)

theorem tspGo_bestsOk (env : TspEnv)
    (hdm : ∀ i j, 0 ≤ env.distancesMat i j)
    (hsm : ∀ i j, 0 ≤ env.vehicleStartDistancesMat i j) :
    ∀ (fuel : ℕ) (last : Option ℕ) (d e pr load : ℚ) (stops : List RouteStop)
      (picked delivered : ℕ) (st : TspBests),
      pr = d * env.vehicle.priceKm → e ≤ d → BestsOk env.vehicle.priceKm st →
      BestsOk env.vehicle.priceKm
        (tspGo env fuel last d e pr load stops picked delivered st) := by
  intro fuel
  induction fuel with
  | zero => intro _ _ _ _ _ _ _ _ st _ _ hst; exact hst
  | succ fuel ih =>
      intro last d e pr load stops picked delivered st hpr hed hst
      rw [tspGo]
      by_cases hprune : (¬ ltBest d st.bestDist = true ∧ ¬ ltBest e st.bestEmpty = true
          ∧ ¬ ltBest pr st.bestPrice = true)
      · rw [if_pos hprune]
        exact hst
      · rw [if_neg hprune]
        by_cases hbase : delivered = env.targetMask
        · rw [if_pos hbase]
          simp only [BestsOk, BestOk, RoutePriceEmptyOk] at hst ⊢
          split_ifs <;>
            refine ⟨?_, ?_, ?_⟩ <;>
              first
                | exact ⟨hpr, hed⟩
                | exact hst.1
                | exact hst.2.1
                | exact hst.2.2
        · rw [if_neg hbase]
          apply foldl_preserve
          · exact hst
          · intro b orderIndex hb
            dsimp only
            by_cases hpickbit : picked &&& (1 <<< orderIndex) = 0
            · rw [if_pos hpickbit]
              by_cases hcap : load + 1 / (env.orders.getD orderIndex dummyOrder).loadFactor > 1
              · rw [if_pos hcap]
                exact hb
              · rw [if_neg hcap]
                apply ih
                · rw [hpr]; ring
                · cases last with
                  | none => exact emptyLeg_le2 _ _ _ _ hed (hsm _ _)
                  | some l => exact emptyLeg_le2 _ _ _ _ hed (hdm _ _)
                · exact hb
            · rw [if_neg hpickbit]
              by_cases hdel : (picked &&& (1 <<< orderIndex) ≠ 0
                  ∧ delivered &&& (1 <<< orderIndex) = 0)
              · rw [if_pos hdel]
                apply ih
                · rw [hpr]; ring
                · have hleg := hdm (last.getD 0) (2 * orderIndex + 1)
                  linarith
                · exact hb
              · rw [if_neg hdel]
                exact hb

theorem tspCollect_ok (pk : ℚ) (st : TspBests) (res : TSPResult)
    (hOk : BestsOk pk st) (h : tspCollect st = some res) :
    RoutePriceEmptyOk pk res.minDistanceRoute
    ∧ RoutePriceEmptyOk pk res.minEmptyRoute
    ∧ RoutePriceEmptyOk pk res.minPriceRoute := by
  obtain ⟨bd, be, bp⟩ := st
  obtain ⟨h1, h2, h3⟩ := hOk
  rcases bd with - | ⟨dv, dr⟩ <;> rcases be with - | ⟨ev, er⟩ <;> rcases bp with - | ⟨pv, prr⟩ <;>
    simp only [tspCollect] at h <;> cases h
  exact ⟨h1, h2, h3⟩

theorem solveTSP_routesOk (dm sm : DistanceMatrix) (vehicleIndex : ℕ)
    (orderIndices : List ℕ) (vehicle : Vehicle) (orders : List Order)
    (res : TSPResult)
    (hdm : ∀ i j, 0 ≤ dm i j) (hsm : ∀ i j, 0 ≤ sm i j)
    (h : solveTSP dm sm vehicleIndex orderIndices vehicle orders = some res) :
    RoutePriceEmptyOk vehicle.priceKm res.minDistanceRoute
    ∧ RoutePriceEmptyOk vehicle.priceKm res.minEmptyRoute
    ∧ RoutePriceEmptyOk vehicle.priceKm res.minPriceRoute := by
  unfold solveTSP at h
  refine tspCollect_ok vehicle.priceKm _ res ?_ h
  apply tspGo_bestsOk _ hdm hsm
  · exact (zero_mul _).symm
  · exact le_refl 0
  · exact ⟨trivial, trivial, trivial⟩

theorem recalculateRouteStats_ok (problem : Problem) (dm sm : DistanceMatrix)
    (vehicle : Vehicle) (stops : List RouteStop) (hdm : ∀ i j, 0 ≤ dm i j) :
    RoutePriceEmptyOk vehicle.priceKm (recalculateRouteStats problem dm sm vehicle stops) := by
  unfold recalculateRouteStats RoutePriceEmptyOk
  cases stops with
  | nil => exact ⟨rfl, le_refl 0⟩
  | cons first rest =>
      refine ⟨rfl, ?_⟩
      exact recalcLegs_le problem dm hdm (first :: rest) _ _ _ (le_refl _)

theorem updateRouteStats_ok (problem : Problem) (dm sm : DistanceMatrix)
    (vehicle : Vehicle) (stops : List RouteStop) (hdm : ∀ i j, 0 ≤ dm i j) :
    RoutePriceEmptyOk vehicle.priceKm (updateRouteStats problem dm sm vehicle stops) := by
  unfold updateRouteStats RoutePriceEmptyOk
  cases stops with
  | nil => exact ⟨rfl, le_refl 0⟩
  | cons first rest =>
      refine ⟨rfl, ?_⟩
      exact updateLegs_le problem dm hdm (first :: rest) _ _ _ (le_refl _)

/-- **C8.** Every `VehicleRoute` whose aggregates are computed by the three
route simulators — the PSA worker's `recalculateStats` loop body, RCRS's
`updateRouteStats`, and the exact solver's TSP accumulation (any route of a
`solveTSP` result) — satisfies `totalPrice = totalDistance × priceKm` and
`emptyDistance ≤ totalDistance`, provided the injected distance function is
nonnegative and `priceKm ≥ 0`. -/
theorem C8_route_stats_invariants (problem : Problem) (distanceCalc : DistanceCalculator)
    (vehicle : Vehicle) (stops : List RouteStop) (vehicleIndex : ℕ)
    (orderIndices : List ℕ) (vehicles : List Vehicle) (orders : List Order)
    (hcalc : ∀ a b, 0 ≤ distanceCalc a b) (hpk : 0 ≤ vehicle.priceKm) :
    RoutePriceEmptyOk vehicle.priceKm
        (recalculateRouteStats problem (buildDistanceMatrix problem.orders distanceCalc)
          (buildVehicleDistances problem.vehicles problem.orders distanceCalc) vehicle stops)
    ∧ RoutePriceEmptyOk vehicle.priceKm
        (updateRouteStats problem (buildDistanceMatrix problem.orders distanceCalc)
          (buildVehicleDistances problem.vehicles problem.orders distanceCalc) vehicle stops)
    ∧ (∀ res, solveTSP (buildDistanceMatrix orders distanceCalc)
          (buildVehicleDistances vehicles orders distanceCalc) vehicleIndex orderIndices
          vehicle orders = some res →
        RoutePriceEmptyOk vehicle.priceKm res.minDistanceRoute
        ∧ RoutePriceEmptyOk vehicle.priceKm res.minEmptyRoute
        ∧ RoutePriceEmptyOk vehicle.priceKm res.minPriceRoute) := by
  refine ⟨?_, ?_, ?_⟩
  · exact recalculateRouteStats_ok problem _ _ vehicle stops
      (buildDistanceMatrix_nonneg _ _ hcalc)
  · exact updateRouteStats_ok problem _ _ vehicle stops
      (buildDistanceMatrix_nonneg _ _ hcalc)
  · intro res h
    exact solveTSP_routesOk _ _ vehicleIndex orderIndices vehicle orders res
      (buildDistanceMatrix_nonneg _ _ hcalc) (buildVehicleDistances_nonneg _ _ _ hcalc) h

/-- **C8 witness** with the taxicab metric and the `pHalf` fixture. -/
theorem C8_route_stats_invariants_witness :
    ((∀ a b, 0 ≤ taxicab a b) ∧ 0 ≤ vFar.priceKm)
    ∧ (RoutePriceEmptyOk vFar.priceKm
        (recalculateRouteStats pHalf (buildDistanceMatrix pHalf.orders taxicab)
          (buildVehicleDistances pHalf.vehicles pHalf.orders taxicab) vFar stopsPD)
      ∧ RoutePriceEmptyOk vFar.priceKm
        (updateRouteStats pHalf (buildDistanceMatrix pHalf.orders taxicab)
          (buildVehicleDistances pHalf.vehicles pHalf.orders taxicab) vFar stopsPD)
      ∧ (∀ res, solveTSP (buildDistanceMatrix [oHalf] taxicab)
            (buildVehicleDistances [vFar] [oHalf] taxicab) 0 [0] vFar [oHalf] = some res →
          RoutePriceEmptyOk vFar.priceKm res.minDistanceRoute
          ∧ RoutePriceEmptyOk vFar.priceKm res.minEmptyRoute
          ∧ RoutePriceEmptyOk vFar.priceKm res.minPriceRoute)) :=
  ⟨⟨fun a b => add_nonneg (abs_nonneg _) (abs_nonneg _), by norm_num [vFar]⟩,
    C8_route_stats_invariants pHalf taxicab vFar stopsPD 0 [0] [vFar] [oHalf]
      (fun a b => add_nonneg (abs_nonneg _) (abs_nonneg _)) (by norm_num [vFar])⟩

/-! ## C1: `maxTotalDistance` enforcement

`followRoute` (the unoptimized solver's simulator) rejects any route whose
running total exceeds `maxTotalDistance`, so an accepted route's total is
bounded.  `BruteForceAlgorithmJS.solveSync`, by contrast, never reads the
constraint: on the repository's own max-distance test problem it returns a
full solution of total distance `2000` although `maxTotalDistance = 50`. -/

theorem followRouteLoop_le (maxTD : ℚ) (dc : DistanceCalculator)
    (rest : List ExtendedRouteStop) :
    ∀ (prev : ExtendedRouteStop) (total empty load : ℚ) (inT : List ℕ) (t e : ℚ),
      total ≤ maxTD →
      followRouteLoop maxTD dc rest prev total empty load inT = Except.ok (t, e) →
      t ≤ maxTD := by
  induction rest with
  | nil =>
      intro prev total empty load inT t e hle hok
      rw [followRouteLoop] at hok
      cases hok
      exact hle
  | cons loc rest ih =>
      intro prev total empty load inT t e hle hok
      rw [followRouteLoop] at hok
      dsimp only at hok
      by_cases hmax : total + dc prev.location loc.location > maxTD
      · rw [if_pos hmax] at hok; cases hok
      · rw [if_neg hmax] at hok
        by_cases hcap : (if loc.type = StopType.pickup then load + 1 / loc.loadFactor
            else load - 1 / loc.loadFactor) > 1
        · rw [if_pos hcap] at hok; cases hok
        · rw [if_neg hcap] at hok
          exact ih loc _ _ _ _ t e (not_lt.mp hmax) hok

set_option maxHeartbeats 2000000 in
/-- C1 (counterexample): the problem `pFar` (one vehicle, one order,
`maxTotalDistance = 50`) passes both size guards, yet
`BruteForceAlgorithmJS.solveSync` returns a genuine solution — not the
`emptySolution` sentinel — in all three objective slots, with total distance
`2000 > 50`: the optimized exact solver never consults `maxTotalDistance`. -/
theorem C1_counterexample :
    solveRustGuard pFar = Except.ok ()
    ∧ solveSync pFar cfgTaxicab
        = Except.ok { bestDistanceSolution := some farSol, bestPriceSolution := some farSol,
                      bestEmptySolution := some farSol }
    ∧ farSol.totalDistance > pFar.maxTotalDistance
    ∧ farSol.routes ≠ [] := by
  refine ⟨rfl, ?_, by norm_num [farSol, pFar], by simp [farSol]⟩
  norm_num [solveSync, MAX_PROBLEM_SIZE, pFar, vFar, oFar, cfgTaxicab, taxicab, mkLoc,
    buildDistanceMatrix, buildVehicleDistances, matrixLoc, dummyOrder, dummyVehicle,
    solveVehicles, iterateAllSubsets, subSeqFrom, subChain, nextSub, getBestRoute,
    solveTSP, tspGo, tspCollect, ltBest, updateBestSolutions, reconstructSolution,
    ltBestQ, farSol, farRoute, List.range, List.range.loop, Nat.shiftLeft_eq]

/-- C1 (amended): (i) `solveSync` is oblivious to `maxTotalDistance` — its
result is unchanged under any rewrite of the constraint; (ii) only the
unoptimized solver's `followRoute` enforces it: any nonempty accepted route
has total distance `≤ maxTotalDistance`; (iii) on `pFar`, where the
constraint excludes every route, the unoptimized solver returns the sentinel
(`null`/`Infinity`, modelled `none`) in all three slots. -/
theorem C1_amended :
    (∀ (p : Problem) (cfg : AlgorithmConfig) (m m' : ℚ),
        solveSync { p with maxTotalDistance := m } cfg
          = solveSync { p with maxTotalDistance := m' } cfg)
    ∧ (∀ (v : Vehicle) (locs : List ExtendedRouteStop) (maxTD : ℚ)
        (dc : DistanceCalculator) (r : VehicleRoute),
        locs ≠ [] →
        followRoute v locs maxTD dc = Except.ok r →
        r.totalDistance ≤ maxTD)
    ∧ unoptimizedSolve pFar cfgTaxicab
        = { bestDistanceSolution := none, bestPriceSolution := none,
            bestEmptySolution := none } := by
  refine ⟨fun p cfg m m' => rfl, ?_, ?_⟩
  · intro v locs maxTD dc r hne hok
    match locs with
    | [] => exact absurd rfl hne
    | first :: rest =>
        rw [followRoute] at hok
        by_cases hmax : dc v.startLocation first.location > maxTD
        · rw [if_pos hmax] at hok; cases hok
        · rw [if_neg hmax] at hok
          by_cases hcap : 1 / first.loadFactor > (1 : ℚ)
          · rw [if_pos hcap] at hok; cases hok
          · rw [if_neg hcap] at hok
            rcases hloop : followRouteLoop maxTD dc rest first
                (dc v.startLocation first.location) (dc v.startLocation first.location)
                (1 / first.loadFactor) [] with err | ⟨t, emp⟩
            · rw [hloop] at hok; cases hok
            · rw [hloop] at hok
              cases hok
              exact followRouteLoop_le maxTD dc rest first _ _ _ _ t emp
                (not_lt.mp hmax) hloop
  · have h1 : generateAllOrderAssignments pFar.orders pFar.vehicles = [[(1, [1])]] := by
      norm_num [generateAllOrderAssignments, assignAdd, setAdd, pFar, vFar, oFar, mkLoc]
    have h2 : generateAllVehicleRoutes pFar.orders [1] = [[pStopFar, dStopFar]] := by
      norm_num [generateAllVehicleRoutes, partitionOrders, backtrack, selections, setAdd,
        setDelete, pFar, oFar, mkLoc, List.find?, dummyOrder, pStopFar, dStopFar]
      decide
    have h3 : followRoute vFar [pStopFar, dStopFar] pFar.maxTotalDistance taxicab
        = .error .maxDistanceExceeded := by
      norm_num [followRoute, followRouteLoop, pStopFar, dStopFar, pFar, vFar, taxicab, mkLoc]
    have h4 : bestRoutesForVehicle vFar [[pStopFar, dStopFar]] pFar.maxTotalDistance taxicab
        = { minDist := none, minEmpty := none, minPrice := none } := by
      simp [bestRoutesForVehicle, h3]
    have h5 : solutionsForAssignment pFar.orders pFar.vehicles pFar.maxTotalDistance
        taxicab [(1, [1])]
        = ({ routes := [], totalDistance := 0, emptyDistance := 0, totalPrice := 0 },
           { routes := [], totalDistance := 0, emptyDistance := 0, totalPrice := 0 },
           { routes := [], totalDistance := 0, emptyDistance := 0, totalPrice := 0 }) := by
      simp only [solutionsForAssignment, List.foldl_cons, List.foldl_nil]
      rw [show (pFar.vehicles.find? (fun v => v.id = 1)).getD dummyVehicle = vFar by rfl]
      rw [h2, h4]
      rfl
    simp only [unoptimizedSolve, h1, List.foldl_cons, List.foldl_nil]
    rw [show cfgTaxicab.distanceCalc = taxicab from rfl] at *
    rw [h5]
    norm_num [ltBestQ]

/-- C1 witness: the amended theorem at concrete inputs — `solveSync` on `pFar`
under two different constraint values, `followRoute` on the feasible pair
`locsW` with budget `1000`, and the sentinel equation itself. -/
theorem C1_amended_witness :
    solveSync { pFar with maxTotalDistance := 50 } cfgTaxicab
        = solveSync { pFar with maxTotalDistance := 1000000 } cfgTaxicab
    ∧ rW.totalDistance ≤ (1000 : ℚ)
    ∧ unoptimizedSolve pFar cfgTaxicab
        = { bestDistanceSolution := none, bestPriceSolution := none,
            bestEmptySolution := none } := by
  obtain ⟨hA, hB, hC⟩ := C1_amended
  refine ⟨hA pFar cfgTaxicab 50 1000000, ?_, hC⟩
  refine hB vFar locsW 1000 taxicab rW (by simp [locsW]) ?_
  norm_num [followRoute, followRouteLoop, locsW, vFar, taxicab, mkLoc, rW, setAdd,
    setDelete]
  rw [show (if StopType.delivery = StopType.pickup then (1 : ℚ) else 0) = 0 from
    if_neg (fun h => StopType.noConfusion h)]
  norm_num

/-! ## C6: route generation -/

theorem routeCountAux_factorial :
    ∀ (fuel a t : ℕ), 2 * a + t ≤ fuel →
      2 ^ a * routeCountAux fuel a t = (2 * a + t).factorial := by
  intro fuel
  induction fuel with
  | zero =>
      intro a t h
      have ha : a = 0 := by omega
      have ht : t = 0 := by omega
      subst ha; subst ht
      simp [routeCountAux, Nat.factorial]
  | succ fuel ih =>
      intro a t h
      by_cases h0 : a = 0 ∧ t = 0
      · obtain ⟨ha, ht⟩ := h0; subst ha; subst ht
        simp [routeCountAux, Nat.factorial]
      · rw [routeCountAux, if_neg h0]
        rcases Nat.eq_zero_or_pos a with ha | ha
        · subst ha
          obtain ⟨s, rfl⟩ : ∃ s, t = s + 1 := ⟨t - 1, by omega⟩
          have ihs := ih 0 s (by omega)
          simp only [pow_zero, one_mul, Nat.mul_zero, Nat.zero_add, Nat.zero_mul,
            Nat.add_sub_cancel] at ihs ⊢
          rw [ihs, Nat.factorial_succ]
        · obtain ⟨s, rfl⟩ : ∃ s, a = s + 1 := ⟨a - 1, by omega⟩
          simp only [Nat.add_sub_cancel]
          rcases Nat.eq_zero_or_pos t with ht | ht
          · subst ht
            have ih1 := ih s 1 (by omega)
            have e : 2 * (s + 1) + 0 = 2 * s + 1 + 1 := by omega
            rw [e, Nat.factorial_succ, ← ih1]
            have e2 : 2 * s + (1 : ℕ) = 2 * s + 1 := rfl
            ring
          · obtain ⟨r, rfl⟩ : ∃ r, t = r + 1 := ⟨t - 1, by omega⟩
            simp only [Nat.add_sub_cancel]
            have ih1 := ih s (r + 2) (by omega)
            have ih2 := ih (s + 1) r (by omega)
            rw [show 2 * s + (r + 2) = 2 * s + r + 2 from by omega] at ih1
            rw [show 2 * (s + 1) + r = 2 * s + r + 2 from by omega] at ih2
            have hc : 2 ^ (s + 1) * routeCountAux fuel (s + 1) r
                = 2 ^ s * routeCountAux fuel s (r + 2) := by rw [ih2, ih1]
            rw [show 2 * (s + 1) + (r + 1) = 2 * s + r + 2 + 1 from by omega,
              Nat.factorial_succ, ← ih1]
            calc 2 ^ (s + 1) * ((s + 1) * routeCountAux fuel s (r + 1 + 1)
                  + (r + 1) * routeCountAux fuel (s + 1) r)
                = (2 * (s + 1)) * (2 ^ s * routeCountAux fuel s (r + 2))
                  + (r + 1) * (2 ^ (s + 1) * routeCountAux fuel (s + 1) r) := by ring
              _ = (2 * (s + 1)) * (2 ^ s * routeCountAux fuel s (r + 2))
                  + (r + 1) * (2 ^ s * routeCountAux fuel s (r + 2)) := by rw [hc]
              _ = (2 * s + r + 2 + 1) * (2 ^ s * routeCountAux fuel s (r + 2)) := by ring



theorem selections_fst_mem {α : Type} (l : List α) :
    ∀ p ∈ selections l, p.1 ∈ l := by
  induction l with
  | nil => intro p hp; simp [selections] at hp
  | cons x xs ih =>
      intro p hp
      rw [selections] at hp
      rcases List.mem_cons.mp hp with h | h
      · subst h; exact List.mem_cons_self x xs
      · obtain ⟨q, hq, rfl⟩ := List.mem_map.mp h
        exact List.mem_cons_of_mem x (ih q hq)

theorem selections_decomp {α : Type} (l : List α) :
    ∀ p ∈ selections l, ∃ l1 l2, l = l1 ++ p.1 :: l2 ∧ p.2 = l1 ++ l2 := by
  induction l with
  | nil => intro p hp; simp [selections] at hp
  | cons x xs ih =>
      intro p hp
      rw [selections] at hp
      rcases List.mem_cons.mp hp with h | h
      · subst h; exact ⟨[], xs, rfl, rfl⟩
      · obtain ⟨q, hq, rfl⟩ := List.mem_map.mp h
        obtain ⟨l1, l2, he1, he2⟩ := ih q hq
        exact ⟨x :: l1, l2, by rw [List.cons_append, ← he1], by rw [List.cons_append, ← he2]⟩

theorem selections_map_sum {α : Type} (h : α → ℕ) (l : List α) :
    ((selections l).map (fun p => h p.1)).sum = (l.map h).sum := by
  induction l with
  | nil => simp [selections]
  | cons x xs ih =>
      rw [selections]
      simp only [List.map_cons, List.map_map, List.sum_cons, Function.comp]
      rw [← ih]
      rfl

theorem selections_keys_nodup {α γ : Type} (κ : α → γ) (l : List α)
    (hl : (l.map κ).Nodup) : ((selections l).map (fun p => κ p.1)).Nodup := by
  induction l with
  | nil => simp [selections]
  | cons x xs ih =>
      rw [selections]
      simp only [List.map_cons, List.map_map, Function.comp] at *
      rw [List.nodup_cons] at hl
      refine List.nodup_cons.mpr ⟨?_, ?_⟩
      · intro hmem
        obtain ⟨q, hq, he⟩ := List.mem_map.mp hmem
        exact hl.1 (he ▸ List.mem_map_of_mem κ (selections_fst_mem xs q hq))
      · exact ih hl.2



theorem stopType_cases (ty : StopType) : ty = StopType.pickup ∨ ty = StopType.delivery := by
  cases ty
  · exact Or.inl rfl
  · exact Or.inr rfl

theorem genPids_append (l1 l2 : List ExtendedRouteStop) :
    genPids (l1 ++ l2) = genPids l1 ++ genPids l2 := by
  induction l1 with
  | nil => simp [genPids]
  | cons x xs ih =>
      rw [List.cons_append, genPids, genPids, ih]
      by_cases h : x.type = StopType.pickup
      · rw [if_pos h, if_pos h, List.cons_append]
      · rw [if_neg h, if_neg h]

theorem genDids_append (l1 l2 : List ExtendedRouteStop) :
    genDids (l1 ++ l2) = genDids l1 ++ genDids l2 := by
  induction l1 with
  | nil => simp [genDids]
  | cons x xs ih =>
      rw [List.cons_append, genDids, genDids, ih]
      by_cases h : x.type = StopType.delivery
      · rw [if_pos h, if_pos h, List.cons_append]
      · rw [if_neg h, if_neg h]

theorem length_eq_pids_add_dids (rem : List ExtendedRouteStop) :
    rem.length = (genPids rem).length + (genDids rem).length := by
  induction rem with
  | nil => simp [genPids, genDids]
  | cons x xs ih =>
      rw [List.length_cons, genPids, genDids, ih]
      rcases stopType_cases x.type with h | h
      · rw [if_pos h, if_neg (by rw [h]; intro hc; exact StopType.noConfusion hc)]
        simp [Nat.add_comm, Nat.add_assoc, Nat.add_left_comm]
      · rw [if_pos h, if_neg (by rw [h]; intro hc; exact StopType.noConfusion hc)]
        simp [Nat.add_comm, Nat.add_assoc, Nat.add_left_comm]

theorem mem_setDelete (s : List ℕ) (x y : ℕ) :
    x ∈ setDelete s y ↔ x ∈ s ∧ x ≠ y := by
  simp [setDelete]

theorem nodup_setDelete (s : List ℕ) (y : ℕ) (h : s.Nodup) : (setDelete s y).Nodup :=
  h.filter _

theorem length_setDelete (s : List ℕ) (y : ℕ) (hnd : s.Nodup) (hy : y ∈ s) :
    (setDelete s y).length + 1 = s.length := by
  induction s with
  | nil => simp at hy
  | cons z zs ih =>
      rw [List.nodup_cons] at hnd
      by_cases hz : z = y
      · subst hz
        have h2 : setDelete (z :: zs) z = zs := by
          simp only [setDelete, List.filter_cons]
          simp
          intro a ha hc
          exact hnd.1 (hc ▸ ha)
        rw [h2]
        rfl
      · have h2 : setDelete (z :: zs) y = z :: setDelete zs y := by
          rw [setDelete, setDelete]
          simp only [List.filter_cons]
          simp [hz]
        rw [h2, List.length_cons, List.length_cons]
        have hyzs : y ∈ zs := by
          rcases List.mem_cons.mp hy with h | h
          · exact absurd h.symm hz
          · exact h
        rw [← ih hnd.2 hyzs]

theorem setAdd_not_mem (s : List ℕ) (y : ℕ) (h : y ∉ s) : setAdd s y = s ++ [y] := by
  rw [setAdd, if_neg h]



theorem length_flatMap_eq {α β : Type} (l : List α) (f : α → List β) :
    (l.flatMap f).length = (l.map (fun a => (f a).length)).sum := by
  rw [List.flatMap, List.length_flatten, List.map_map]
  rfl

theorem length_filter_mem (l s : List ℕ) (hl : l.Nodup) (hs : s.Nodup)
    (hsub : ∀ x ∈ s, x ∈ l) :
    (l.filter (fun x => decide (x ∈ s))).length = s.length := by
  have h1 : (l.filter (fun x => decide (x ∈ s))).Nodup := hl.filter _
  have hperm : (l.filter (fun x => decide (x ∈ s))).Perm s := by
    apply List.perm_of_nodup_nodup_toFinset_eq h1 hs
    ext a
    simp only [List.mem_toFinset, List.mem_filter, decide_eq_true_eq]
    exact ⟨fun h => h.2, fun h => ⟨hsub a h, h⟩⟩
  exact hperm.length_eq

theorem mem_genPids (i : ℕ) (l : List ExtendedRouteStop) :
    i ∈ genPids l ↔ ∃ x ∈ l, x.type = StopType.pickup ∧ x.orderId = i := by
  induction l with
  | nil => simp [genPids]
  | cons x xs ih =>
      rw [genPids]
      by_cases h : x.type = StopType.pickup
      · rw [if_pos h]
        simp only [List.mem_cons, ih]
        constructor
        · rintro (rfl | ⟨y, hy, h1, h2⟩)
          · exact ⟨x, Or.inl rfl, h, rfl⟩
          · exact ⟨y, Or.inr hy, h1, h2⟩
        · rintro ⟨y, hy, h1, h2⟩
          rcases hy with rfl | hy
          · exact Or.inl h2.symm
          · exact Or.inr ⟨y, hy, h1, h2⟩
      · rw [if_neg h]
        rw [ih]
        constructor
        · rintro ⟨y, hy, h1, h2⟩
          exact ⟨y, List.mem_cons_of_mem x hy, h1, h2⟩
        · rintro ⟨y, hy, h1, h2⟩
          rcases List.mem_cons.mp hy with rfl | hy
          · exact absurd h1 h
          · exact ⟨y, hy, h1, h2⟩

theorem mem_genDids (i : ℕ) (l : List ExtendedRouteStop) :
    i ∈ genDids l ↔ ∃ x ∈ l, x.type = StopType.delivery ∧ x.orderId = i := by
  induction l with
  | nil => simp [genDids]
  | cons x xs ih =>
      rw [genDids]
      by_cases h : x.type = StopType.delivery
      · rw [if_pos h]
        simp only [List.mem_cons, ih]
        constructor
        · rintro (rfl | ⟨y, hy, h1, h2⟩)
          · exact ⟨x, Or.inl rfl, h, rfl⟩
          · exact ⟨y, Or.inr hy, h1, h2⟩
        · rintro ⟨y, hy, h1, h2⟩
          rcases hy with rfl | hy
          · exact Or.inl h2.symm
          · exact Or.inr ⟨y, hy, h1, h2⟩
      · rw [if_neg h]
        rw [ih]
        constructor
        · rintro ⟨y, hy, h1, h2⟩
          exact ⟨y, List.mem_cons_of_mem x hy, h1, h2⟩
        · rintro ⟨y, hy, h1, h2⟩
          rcases List.mem_cons.mp hy with rfl | hy
          · exact absurd h1 h
          · exact ⟨y, hy, h1, h2⟩

theorem genKeys_nodup (rem : List ExtendedRouteStop)
    (hP : (genPids rem).Nodup) (hD : (genDids rem).Nodup) :
    (rem.map (fun s => (s.orderId, s.type))).Nodup := by
  induction rem with
  | nil => simp
  | cons x xs ih =>
      rw [List.map_cons, List.nodup_cons]
      rcases stopType_cases x.type with h | h
      · rw [genPids, if_pos h] at hP
        rw [genDids, if_neg (by rw [h]; intro hc; exact StopType.noConfusion hc)] at hD
        rw [List.nodup_cons] at hP
        refine ⟨?_, ih hP.2 hD⟩
        intro hmem
        obtain ⟨y, hy, he⟩ := List.mem_map.mp hmem
        have h1 : y.orderId = x.orderId := congrArg Prod.fst he
        have h2 : y.type = x.type := congrArg Prod.snd he
        exact hP.1 ((mem_genPids x.orderId xs).mpr ⟨y, hy, by rw [h2, h], h1⟩)
      · rw [genDids, if_pos h] at hD
        rw [genPids, if_neg (by rw [h]; intro hc; exact StopType.noConfusion hc)] at hP
        rw [List.nodup_cons] at hD
        refine ⟨?_, ih hP hD.2⟩
        intro hmem
        obtain ⟨y, hy, he⟩ := List.mem_map.mp hmem
        have h1 : y.orderId = x.orderId := congrArg Prod.fst he
        have h2 : y.type = x.type := congrArg Prod.snd he
        exact hD.1 ((mem_genDids x.orderId xs).mpr ⟨y, hy, by rw [h2, h], h1⟩)

theorem sum_classify (inT : List ℕ) (vp vd : ℕ) (rem : List ExtendedRouteStop) :
    (rem.map (fun x => if x.type = StopType.pickup then vp
        else if x.orderId ∈ inT then vd else 0)).sum
      = vp * (genPids rem).length
        + vd * ((genDids rem).filter (fun i => decide (i ∈ inT))).length := by
  induction rem with
  | nil => simp [genPids, genDids]
  | cons x xs ih =>
      rw [List.map_cons, List.sum_cons, ih, genPids, genDids]
      rcases stopType_cases x.type with h | h
      · rw [if_pos h, if_pos h,
          if_neg (by rw [h]; intro hc; exact StopType.noConfusion hc)]
        simp only [List.length_cons]
        ring
      · rw [if_neg (by rw [h]; intro hc; exact StopType.noConfusion hc), if_pos h,
          List.filter_cons]
        by_cases hm : x.orderId ∈ inT
        · rw [if_pos hm]
          simp only [h, hm, decide_true_eq_true, if_true, List.length_cons,
            show (StopType.delivery = StopType.pickup) = False from
              by simp, if_false]
          ring
        · rw [if_neg hm]
          simp only [h, hm, decide_false_eq_false, Bool.false_eq_true, if_false,
            show (StopType.delivery = StopType.pickup) = False from
              by simp]
          ring



theorem genInv_dids_length (rem : List ExtendedRouteStop) (inT : List ℕ)
    (hinv : GenInv rem inT) :
    (genDids rem).length = (genPids rem).length + inT.length := by
  obtain ⟨hP, hD, hT, h4, h5, h6, h7⟩ := hinv
  have hnd : (genPids rem ++ inT).Nodup := by
    refine List.Nodup.append hP hT ?_
    intro a ha1 ha2
    exact h4 a ha1 ha2
  have hperm : (genDids rem).Perm (genPids rem ++ inT) := by
    apply List.perm_of_nodup_nodup_toFinset_eq hD hnd
    ext a
    simp only [List.mem_toFinset, List.mem_append]
    exact ⟨fun h => h7 a h, fun h => h.elim (h5 a) (h6 a)⟩
  rw [hperm.length_eq, List.length_append]

theorem genInv_rem_length (rem : List ExtendedRouteStop) (inT : List ℕ)
    (hinv : GenInv rem inT) :
    rem.length = 2 * (genPids rem).length + inT.length := by
  rw [length_eq_pids_add_dids rem, genInv_dids_length rem inT hinv]
  ring

theorem genInv_pickup (l1 l2 : List ExtendedRouteStop) (x : ExtendedRouteStop)
    (inT : List ℕ) (hx : x.type = StopType.pickup)
    (hinv : GenInv (l1 ++ x :: l2) inT) :
    GenInv (l1 ++ l2) (setAdd inT x.orderId)
    ∧ (genPids (l1 ++ l2)).length + 1 = (genPids (l1 ++ x :: l2)).length
    ∧ (setAdd inT x.orderId).length = inT.length + 1 := by
  have e1 : genPids (l1 ++ x :: l2) = genPids l1 ++ x.orderId :: genPids l2 := by
    rw [genPids_append, genPids, if_pos hx]
  have e2 : genPids (l1 ++ l2) = genPids l1 ++ genPids l2 := genPids_append l1 l2
  have e3 : genDids (l1 ++ x :: l2) = genDids (l1 ++ l2) := by
    rw [genDids_append, genDids_append, genDids,
      if_neg (by rw [hx]; intro hc; exact StopType.noConfusion hc)]
  obtain ⟨hP, hD, hT, h4, h5, h6, h7⟩ := hinv
  rw [e1] at hP h4 h5 h7
  rw [e3] at hD h5 h6 h7
  have hmid := List.nodup_cons.mp (List.nodup_middle.mp hP)
  have hxP : x.orderId ∈ genPids l1 ++ x.orderId :: genPids l2 := by
    simp
  have hxT : x.orderId ∉ inT := h4 x.orderId hxP
  have ea : setAdd inT x.orderId = inT ++ [x.orderId] := setAdd_not_mem inT x.orderId hxT
  refine ⟨⟨?_, ?_, ?_, ?_, ?_, ?_, ?_⟩, ?_, ?_⟩
  · rw [e2]; exact hmid.2
  · exact hD
  · rw [ea]
    have h1 : (x.orderId :: (inT ++ [])).Nodup :=
      List.nodup_cons.mpr (by constructor; simpa using hxT; simpa using hT)
    have h2 := List.nodup_middle.mpr h1
    simpa using h2
  · intro i hi
    rw [e2] at hi
    rw [ea]
    intro hmem
    rcases List.mem_append.mp hmem with hm | hm
    · have : i ∈ genPids l1 ++ x.orderId :: genPids l2 := by
        rcases List.mem_append.mp hi with h | h
        · exact List.mem_append_left _ h
        · exact List.mem_append_right _ (List.mem_cons_of_mem _ h)
      exact h4 i this hm
    · have : i = x.orderId := List.mem_singleton.mp hm
      exact hmid.1 (this ▸ hi)
  · intro i hi
    rw [e2] at hi
    apply h5
    rcases List.mem_append.mp hi with h | h
    · exact List.mem_append_left _ h
    · exact List.mem_append_right _ (List.mem_cons_of_mem _ h)
  · intro i hi
    rw [ea] at hi
    rcases List.mem_append.mp hi with hm | hm
    · exact h6 i hm
    · have : i = x.orderId := List.mem_singleton.mp hm
      exact this ▸ h5 x.orderId hxP
  · intro i hi
    rcases h7 i hi with hm | hm
    · rcases List.mem_append.mp hm with h | h
      · exact Or.inl (by rw [e2]; exact List.mem_append_left _ h)
      · rcases List.mem_cons.mp h with rfl | h
        · exact Or.inr (by rw [ea]; simp)
        · exact Or.inl (by rw [e2]; exact List.mem_append_right _ h)
    · exact Or.inr (by rw [ea]; exact List.mem_append_left _ hm)
  · rw [e1, e2]
    simp [List.length_append]
    omega
  · rw [ea]
    simp

theorem genInv_delivery (l1 l2 : List ExtendedRouteStop) (x : ExtendedRouteStop)
    (inT : List ℕ) (hx : x.type = StopType.delivery) (hmem : x.orderId ∈ inT)
    (hinv : GenInv (l1 ++ x :: l2) inT) :
    GenInv (l1 ++ l2) (setDelete inT x.orderId)
    ∧ genPids (l1 ++ l2) = genPids (l1 ++ x :: l2)
    ∧ (setDelete inT x.orderId).length + 1 = inT.length := by
  have e1 : genDids (l1 ++ x :: l2) = genDids l1 ++ x.orderId :: genDids l2 := by
    rw [genDids_append, genDids, if_pos hx]
  have e2 : genDids (l1 ++ l2) = genDids l1 ++ genDids l2 := genDids_append l1 l2
  have e3 : genPids (l1 ++ x :: l2) = genPids (l1 ++ l2) := by
    rw [genPids_append, genPids_append, genPids,
      if_neg (by rw [hx]; intro hc; exact StopType.noConfusion hc)]
  obtain ⟨hP, hD, hT, h4, h5, h6, h7⟩ := hinv
  rw [e1] at hD h5 h6 h7
  rw [e3] at hP h4 h5 h7
  have hmid := List.nodup_cons.mp (List.nodup_middle.mp hD)
  have hxnotP : x.orderId ∉ genPids (l1 ++ l2) := fun hp => h4 x.orderId hp hmem
  refine ⟨⟨?_, ?_, ?_, ?_, ?_, ?_, ?_⟩, e3.symm, ?_⟩
  · exact hP
  · rw [e2]; exact hmid.2
  · exact nodup_setDelete inT x.orderId hT
  · intro i hi hm
    exact h4 i hi ((mem_setDelete inT i x.orderId).mp hm).1
  · intro i hi
    have hiD := h5 i hi
    rw [e2]
    rcases List.mem_append.mp hiD with h | h
    · exact List.mem_append_left _ h
    · rcases List.mem_cons.mp h with rfl | h
      · exact absurd hi hxnotP
      · exact List.mem_append_right _ h
  · intro i hi
    obtain ⟨hiT, hne⟩ := (mem_setDelete inT i x.orderId).mp hi
    have hiD := h6 i hiT
    rw [e2]
    rcases List.mem_append.mp hiD with h | h
    · exact List.mem_append_left _ h
    · rcases List.mem_cons.mp h with rfl | h
      · exact absurd rfl hne
      · exact List.mem_append_right _ h
  · intro i hi
    rw [e2] at hi
    have hiD : i ∈ genDids l1 ++ x.orderId :: genDids l2 := by
      rcases List.mem_append.mp hi with h | h
      · exact List.mem_append_left _ h
      · exact List.mem_append_right _ (List.mem_cons_of_mem _ h)
    have hne : i ≠ x.orderId := by
      intro hc
      exact hmid.1 (hc ▸ hi)
    rcases h7 i hiD with hm | hm
    · exact Or.inl hm
    · exact Or.inr ((mem_setDelete inT i x.orderId).mpr ⟨hm, hne⟩)
  · exact length_setDelete inT x.orderId hT hmem

theorem nodup_flatMap_tagged {α β γ : Type} (l : List α) (f : α → List β)
    (κ : α → γ) (τ : β → γ)
    (hk : (l.map κ).Nodup)
    (hn : ∀ a ∈ l, (f a).Nodup)
    (ht : ∀ a ∈ l, ∀ b ∈ f a, τ b = κ a) :
    (l.flatMap f).Nodup := by
  induction l with
  | nil => simp
  | cons x xs ih =>
      rw [List.flatMap_cons]
      rw [List.map_cons, List.nodup_cons] at hk
      refine List.Nodup.append (hn x (List.mem_cons_self x xs))
        (ih hk.2 (fun a ha => hn a (List.mem_cons_of_mem x ha))
          (fun a ha b hb => ht a (List.mem_cons_of_mem x ha) b hb)) ?_
      intro b hb1 hb2
      rw [List.mem_flatMap] at hb2
      obtain ⟨a, ha, hba⟩ := hb2
      have e1 := ht x (List.mem_cons_self x xs) b hb1
      have e2 := ht a (List.mem_cons_of_mem x ha) b hba
      have e3 : κ x = κ a := by rw [← e1, e2]
      exact hk.1 (by rw [e3]; exact List.mem_map_of_mem κ ha)



theorem backtrack_mem (total : ℕ) :
    ∀ (fuel : ℕ) (cur rem : List ExtendedRouteStop) (inT : List ℕ)
      (r : List ExtendedRouteStop),
      cur.length + rem.length = total →
      r ∈ backtrack total fuel cur rem inT →
      ∃ s, r = cur ++ s ∧ s.Perm rem ∧ AdmissibleSeq inT s := by
  intro fuel
  induction fuel with
  | zero =>
      intro cur rem inT r hlen hr
      rw [backtrack] at hr
      by_cases hc : cur.length = total
      · rw [if_pos hc] at hr
        have hrem : rem = [] := List.eq_nil_of_length_eq_zero (by omega)
        subst hrem
        rcases List.mem_singleton.mp hr with rfl
        exact ⟨[], by simp, List.Perm.refl [], trivial⟩
      · rw [if_neg hc] at hr
        exact absurd hr (List.not_mem_nil r)
  | succ fuel ih =>
      intro cur rem inT r hlen hr
      rw [backtrack] at hr
      by_cases hc : cur.length = total
      · rw [if_pos hc] at hr
        have hrem : rem = [] := List.eq_nil_of_length_eq_zero (by omega)
        subst hrem
        rcases List.mem_singleton.mp hr with rfl
        exact ⟨[], by simp, List.Perm.refl [], trivial⟩
      · rw [if_neg hc] at hr
        rw [List.mem_flatMap] at hr
        obtain ⟨sel, hsel, hrF⟩ := hr
        dsimp only at hrF
        by_cases hskip : sel.1.type = StopType.delivery ∧ sel.1.orderId ∉ inT
        · rw [if_pos hskip] at hrF
          exact absurd hrF (List.not_mem_nil r)
        · rw [if_neg hskip] at hrF
          obtain ⟨l1, l2, hdec, hrest⟩ := selections_decomp rem sel hsel
          have hlen2 : (cur ++ [sel.1]).length + sel.2.length = total := by
            rw [hdec] at hlen
            rw [hrest]
            simp only [List.length_append, List.length_cons, List.length_nil] at *
            omega
          obtain ⟨s, hs1, hs2, hs3⟩ := ih (cur ++ [sel.1]) sel.2 _ r hlen2 hrF
          refine ⟨sel.1 :: s, ?_, ?_, ?_⟩
          · rw [hs1, List.append_assoc]
            rfl
          · rw [hrest] at hs2
            rw [hdec]
            exact (hs2.cons sel.1).trans List.perm_middle.symm
          · exact ⟨fun hdel => by_contra (fun hnm => hskip ⟨hdel, hnm⟩), hs3⟩



theorem backtrack_count (total : ℕ) :
    ∀ (fuel : ℕ) (cur rem : List ExtendedRouteStop) (inT : List ℕ),
      rem.length ≤ fuel →
      cur.length + rem.length = total →
      GenInv rem inT →
      (backtrack total fuel cur rem inT).length
        = routeCountAux fuel (genPids rem).length inT.length := by
  intro fuel
  induction fuel with
  | zero =>
      intro cur rem inT hf hlen hinv
      have hrem : rem = [] := List.eq_nil_of_length_eq_zero (by omega)
      subst hrem
      rw [backtrack, if_pos (by simpa using hlen)]
      simp [genPids, routeCountAux]
  | succ fuel ih =>
      intro cur rem inT hf hlen hinv
      by_cases hrem : rem = []
      · subst hrem
        have hT0 : inT = [] := by
          rcases hinv with ⟨-, -, -, -, -, h6, -⟩
          refine List.eq_nil_iff_forall_not_mem.mpr (fun i hi => ?_)
          have := h6 i hi
          simp [genDids] at this
        subst hT0
        rw [backtrack, if_pos (by simpa using hlen)]
        simp [genPids, routeCountAux]
      · have hpos : 0 < rem.length := List.length_pos.mpr hrem
        have hc : ¬ cur.length = total := by omega
        have hlen21 : rem.length = 2 * (genPids rem).length + inT.length :=
          genInv_rem_length rem inT hinv
        rw [backtrack, if_neg hc]
        rw [length_flatMap_eq]
        have hbranch : ∀ sel ∈ selections rem,
            ((if sel.1.type = StopType.delivery ∧ sel.1.orderId ∉ inT then
                ([] : List (List ExtendedRouteStop))
              else
                backtrack total fuel (cur ++ [sel.1]) sel.2
                  (if sel.1.type = StopType.pickup then setAdd inT sel.1.orderId
                   else setDelete inT sel.1.orderId)).length)
            = (if sel.1.type = StopType.pickup then
                routeCountAux fuel ((genPids rem).length - 1) (inT.length + 1)
              else if sel.1.orderId ∈ inT then
                routeCountAux fuel (genPids rem).length (inT.length - 1)
              else 0) := by
          intro sel hsel
          obtain ⟨l1, l2, hdec, hrest⟩ := selections_decomp rem sel hsel
          have hlen2 : (cur ++ [sel.1]).length + sel.2.length = total := by
            rw [hdec] at hlen
            rw [hrest]
            simp only [List.length_append, List.length_cons, List.length_nil] at *
            omega
          have hf2 : sel.2.length ≤ fuel := by
            rw [hdec] at hf
            rw [hrest]
            simp only [List.length_append, List.length_cons] at *
            omega
          rcases stopType_cases sel.1.type with hty | hty
          · rw [if_neg (fun hand => by rw [hty] at hand; exact StopType.noConfusion hand.1),
              if_pos hty, if_pos hty]
            obtain ⟨hinv2, hlp, hlt⟩ :=
              genInv_pickup l1 l2 sel.1 inT hty (hdec ▸ hinv)
            rw [← hrest] at hinv2 hlp
            rw [ih (cur ++ [sel.1]) sel.2 _ hf2 hlen2 hinv2]
            rw [hlt]
            have : (genPids sel.2).length = (genPids rem).length - 1 := by
              rw [← hdec] at hlp
              omega
            rw [this]
          · by_cases hm : sel.1.orderId ∈ inT
            · rw [if_neg (fun hand => hand.2 hm),
                if_neg (by rw [hty]; intro hcon; exact StopType.noConfusion hcon),
                if_neg (by rw [hty]; intro hcon; exact StopType.noConfusion hcon),
                if_pos hm]
              obtain ⟨hinv2, hlp, hlt⟩ :=
                genInv_delivery l1 l2 sel.1 inT hty hm (hdec ▸ hinv)
              rw [← hrest] at hinv2 hlp
              rw [ih (cur ++ [sel.1]) sel.2 _ hf2 hlen2 hinv2]
              have e1 : (genPids sel.2).length = (genPids rem).length := by
                rw [hlp, ← hdec]
              have e2 : (setDelete inT sel.1.orderId).length = inT.length - 1 := by
                omega
              rw [e1, e2]
            · rw [if_pos ⟨hty, hm⟩,
                if_neg (by rw [hty]; intro hcon; exact StopType.noConfusion hcon),
                if_neg hm]
              rfl
        rw [List.map_congr_left hbranch]
        rw [selections_map_sum (fun x => if x.type = StopType.pickup then
            routeCountAux fuel ((genPids rem).length - 1) (inT.length + 1)
          else if x.orderId ∈ inT then
            routeCountAux fuel (genPids rem).length (inT.length - 1)
          else 0) rem]
        rw [sum_classify inT _ _ rem]
        have hDv : ((genDids rem).filter (fun i => decide (i ∈ inT))).length
            = inT.length := by
          rcases hinv with ⟨-, hD, hT, -, -, h6, -⟩
          exact length_filter_mem (genDids rem) inT hD hT h6
        rw [hDv]
        rw [routeCountAux, if_neg (by omega)]
        ring

theorem backtrack_nodup (total : ℕ) :
    ∀ (fuel : ℕ) (cur rem : List ExtendedRouteStop) (inT : List ℕ),
      cur.length + rem.length = total →
      GenInv rem inT →
      (backtrack total fuel cur rem inT).Nodup := by
  intro fuel
  induction fuel with
  | zero =>
      intro cur rem inT hlen hinv
      rw [backtrack]
      by_cases hc : cur.length = total
      · rw [if_pos hc]; exact List.nodup_singleton cur
      · rw [if_neg hc]; exact List.nodup_nil
  | succ fuel ih =>
      intro cur rem inT hlen hinv
      rw [backtrack]
      by_cases hc : cur.length = total
      · rw [if_pos hc]; exact List.nodup_singleton cur
      · rw [if_neg hc]
        apply nodup_flatMap_tagged (selections rem) _
          (fun sel => some (sel.1.orderId, sel.1.type))
          (fun r => r[cur.length]?.map (fun st => (st.orderId, st.type)))
        · have h1 : (rem.map (fun s => (s.orderId, s.type))).Nodup :=
            genKeys_nodup rem hinv.1 hinv.2.1
          have h2 := selections_keys_nodup (fun s => (s.orderId, s.type)) rem h1
          have h3 := h2.map (Option.some_injective (ℕ × StopType))
          rw [List.map_map] at h3
          exact h3
        · intro sel hsel
          dsimp only
          by_cases hskip : sel.1.type = StopType.delivery ∧ sel.1.orderId ∉ inT
          · rw [if_pos hskip]; exact List.nodup_nil
          · rw [if_neg hskip]
            obtain ⟨l1, l2, hdec, hrest⟩ := selections_decomp rem sel hsel
            have hlen2 : (cur ++ [sel.1]).length + sel.2.length = total := by
              rw [hdec] at hlen
              rw [hrest]
              simp only [List.length_append, List.length_cons, List.length_nil] at *
              omega
            rcases stopType_cases sel.1.type with hty | hty
            · rw [if_pos hty]
              obtain ⟨hinv2, -, -⟩ := genInv_pickup l1 l2 sel.1 inT hty (hdec ▸ hinv)
              rw [← hrest] at hinv2
              exact ih (cur ++ [sel.1]) sel.2 _ hlen2 hinv2
            · have hm : sel.1.orderId ∈ inT := by
                by_contra hnm
                exact hskip ⟨hty, hnm⟩
              rw [if_neg (by rw [hty]; intro hcon; exact StopType.noConfusion hcon)]
              obtain ⟨hinv2, -, -⟩ := genInv_delivery l1 l2 sel.1 inT hty hm (hdec ▸ hinv)
              rw [← hrest] at hinv2
              exact ih (cur ++ [sel.1]) sel.2 _ hlen2 hinv2
        · intro sel hsel b hb
          dsimp only at hb ⊢
          by_cases hskip : sel.1.type = StopType.delivery ∧ sel.1.orderId ∉ inT
          · rw [if_pos hskip] at hb
            exact absurd hb (List.not_mem_nil b)
          · rw [if_neg hskip] at hb
            obtain ⟨l1, l2, hdec, hrest⟩ := selections_decomp rem sel hsel
            have hlen2 : (cur ++ [sel.1]).length + sel.2.length = total := by
              rw [hdec] at hlen
              rw [hrest]
              simp only [List.length_append, List.length_cons, List.length_nil] at *
              omega
            obtain ⟨s, hs1, -, -⟩ := backtrack_mem total fuel (cur ++ [sel.1]) sel.2 _ b
              hlen2 hb
            rw [hs1, List.append_assoc]
            rw [List.getElem?_append_right (le_refl cur.length)]
            simp



theorem genPids_all_pickup (l : List ExtendedRouteStop)
    (h : ∀ x ∈ l, x.type = StopType.pickup) :
    genPids l = l.map (fun s => s.orderId) ∧ genDids l = [] := by
  induction l with
  | nil => exact ⟨rfl, rfl⟩
  | cons x xs ih =>
      obtain ⟨ih1, ih2⟩ := ih (fun y hy => h y (List.mem_cons_of_mem x hy))
      have hx := h x (List.mem_cons_self x xs)
      constructor
      · rw [genPids, if_pos hx, ih1, List.map_cons]
      · rw [genDids, if_neg (by rw [hx]; intro hc; exact StopType.noConfusion hc), ih2]

theorem genDids_all_delivery (l : List ExtendedRouteStop)
    (h : ∀ x ∈ l, x.type = StopType.delivery) :
    genDids l = l.map (fun s => s.orderId) ∧ genPids l = [] := by
  induction l with
  | nil => exact ⟨rfl, rfl⟩
  | cons x xs ih =>
      obtain ⟨ih1, ih2⟩ := ih (fun y hy => h y (List.mem_cons_of_mem x hy))
      have hx := h x (List.mem_cons_self x xs)
      constructor
      · rw [genDids, if_pos hx, ih1, List.map_cons]
      · rw [genPids, if_neg (by rw [hx]; intro hc; exact StopType.noConfusion hc), ih2]

theorem partition_init (orders : List Order) (orderIds : List ℕ) :
    genPids ((partitionOrders orders orderIds).1 ++ (partitionOrders orders orderIds).2)
        = orderIds
    ∧ genDids ((partitionOrders orders orderIds).1 ++ (partitionOrders orders orderIds).2)
        = orderIds
    ∧ ((partitionOrders orders orderIds).1
        ++ (partitionOrders orders orderIds).2).length = 2 * orderIds.length := by
  have hP := genPids_all_pickup (partitionOrders orders orderIds).1
    (by intro x hx
        obtain ⟨oid, hoid, rfl⟩ := List.mem_map.mp hx
        rfl)
  have hD := genDids_all_delivery (partitionOrders orders orderIds).2
    (by intro x hx
        obtain ⟨oid, hoid, rfl⟩ := List.mem_map.mp hx
        rfl)
  have hmap1 : ((partitionOrders orders orderIds).1).map (fun s => s.orderId) = orderIds := by
    rw [show (partitionOrders orders orderIds).1 = orderIds.map (fun oid =>
        let o := (orders.find? (fun o => o.id = oid)).getD dummyOrder
        ({ orderId := oid, type := StopType.pickup, location := o.pickupLocation,
           loadFactor := o.loadFactor } : ExtendedRouteStop)) from rfl, List.map_map]
    exact List.map_id orderIds
  have hmap2 : ((partitionOrders orders orderIds).2).map (fun s => s.orderId) = orderIds := by
    rw [show (partitionOrders orders orderIds).2 = orderIds.map (fun oid =>
        let o := (orders.find? (fun o => o.id = oid)).getD dummyOrder
        ({ orderId := oid, type := StopType.delivery, location := o.deliveryLocation,
           loadFactor := o.loadFactor } : ExtendedRouteStop)) from rfl, List.map_map]
    exact List.map_id orderIds
  refine ⟨?_, ?_, ?_⟩
  · rw [genPids_append, hP.1, hD.2, hmap1, List.append_nil]
  · rw [genDids_append, hP.2, hD.1, hmap2, List.nil_append]
  · rw [List.length_append]
    have e1 : ((partitionOrders orders orderIds).1).length = orderIds.length := by
      conv_rhs => rw [← hmap1]
      rw [List.length_map]
    have e2 : ((partitionOrders orders orderIds).2).length = orderIds.length := by
      conv_rhs => rw [← hmap2]
      rw [List.length_map]
    omega

theorem genInv_init (orders : List Order) (orderIds : List ℕ) (hnd : orderIds.Nodup) :
    GenInv ((partitionOrders orders orderIds).1 ++ (partitionOrders orders orderIds).2)
      [] := by
  obtain ⟨hP, hD, -⟩ := partition_init orders orderIds
  refine ⟨?_, ?_, List.nodup_nil, ?_, ?_, ?_, ?_⟩
  · rw [hP]; exact hnd
  · rw [hD]; exact hnd
  · intro i hi hmem
    exact absurd hmem (List.not_mem_nil i)
  · intro i hi
    rw [hD]; rw [hP] at hi; exact hi
  · intro i hi
    exact absurd hi (List.not_mem_nil i)
  · intro i hi
    exact Or.inl (by rw [hP]; rw [hD] at hi; exact hi)

theorem admissibleSeq_delivery :
    ∀ (l1 : List ExtendedRouteStop) (inT : List ℕ) (d : ExtendedRouteStop)
      (l2 : List ExtendedRouteStop),
      AdmissibleSeq inT (l1 ++ d :: l2) → d.type = StopType.delivery →
      d.orderId ∈ inT ∨ ∃ p ∈ l1, p.type = StopType.pickup ∧ p.orderId = d.orderId := by
  intro l1
  induction l1 with
  | nil =>
      intro inT d l2 hadm hd
      exact Or.inl (hadm.1 hd)
  | cons x xs ih =>
      intro inT d l2 hadm hd
      rcases ih _ d l2 hadm.2 hd with hm | ⟨p, hp, h1, h2⟩
      · rcases stopType_cases x.type with hty | hty
        · rw [if_pos hty] at hm
          rcases (mem_setAdd inT d.orderId x.orderId).mp hm with hm2 | hm2
          · exact Or.inl hm2
          · exact Or.inr ⟨x, List.mem_cons_self x xs, hty, hm2.symm⟩
        · rw [if_neg (by rw [hty]; intro hc; exact StopType.noConfusion hc)] at hm
          exact Or.inl ((mem_setDelete inT d.orderId x.orderId).mp hm).1
      · exact Or.inr ⟨p, List.mem_cons_of_mem x hp, h1, h2⟩

/-- C6: for a duplicate-free set of `N` assigned order ids,
`generateAllVehicleRoutes` emits exactly `(2N)!/2^N` routes (stated
multiplicatively: `2^N` times the count equals `(2N)!`), the emitted list has
no duplicates, and every route is a permutation of the `2N` partitioned
pickup/delivery stops in which each delivery is preceded by a pickup of the
same order. -/
theorem C6_route_generation (orders : List Order) (orderIds : List ℕ)
    (hnd : orderIds.Nodup) :
    2 ^ orderIds.length * (generateAllVehicleRoutes orders orderIds).length
        = (2 * orderIds.length).factorial
    ∧ (generateAllVehicleRoutes orders orderIds).Nodup
    ∧ ∀ r ∈ generateAllVehicleRoutes orders orderIds,
        r.Perm ((partitionOrders orders orderIds).1 ++ (partitionOrders orders orderIds).2)
        ∧ (∀ (l1 l2 : List ExtendedRouteStop) (d : ExtendedRouteStop),
            r = l1 ++ d :: l2 → d.type = StopType.delivery →
            ∃ p ∈ l1, p.type = StopType.pickup ∧ p.orderId = d.orderId) := by
  obtain ⟨hP, hD, hL⟩ := partition_init orders orderIds
  have hinv := genInv_init orders orderIds hnd
  have hgen : generateAllVehicleRoutes orders orderIds
      = backtrack ((partitionOrders orders orderIds).1
            ++ (partitionOrders orders orderIds).2).length
          ((partitionOrders orders orderIds).1
            ++ (partitionOrders orders orderIds).2).length
          []
          ((partitionOrders orders orderIds).1 ++ (partitionOrders orders orderIds).2)
          [] := rfl
  refine ⟨?_, ?_, ?_⟩
  · rw [hgen, backtrack_count _ _ _ _ _ (le_refl _) (by simp) hinv, hP]
    have := routeCountAux_factorial ((partitionOrders orders orderIds).1
        ++ (partitionOrders orders orderIds).2).length orderIds.length 0 (by omega)
    simp only [List.length_nil, Nat.add_zero] at this ⊢
    exact this
  · rw [hgen]
    exact backtrack_nodup _ _ _ _ _ (by simp) hinv
  · intro r hr
    rw [hgen] at hr
    obtain ⟨s, hs1, hs2, hs3⟩ := backtrack_mem _ _ _ _ _ r (by simp) hr
    rw [List.nil_append] at hs1
    subst hs1
    refine ⟨hs2, ?_⟩
    intro l1 l2 d hdec hd
    rw [hdec] at hs3
    rcases admissibleSeq_delivery l1 [] d l2 hs3 hd with hm | hm
    · exact absurd hm (List.not_mem_nil d.orderId)
    · exact hm

/-- C6 witness: the counting clause at the concrete one-order instance
(`2^1` routes times ... `= 2!`). -/
theorem C6_route_generation_witness :
    ([1] : List ℕ).Nodup
    ∧ 2 ^ ([1] : List ℕ).length * (generateAllVehicleRoutes [oFar] [1]).length
        = (2 * ([1] : List ℕ).length).factorial :=
  ⟨by decide, (C6_route_generation [oFar] [1] (by decide)).1⟩

end VRP
